import Mathlib

/-!
# Incremental aggregation engine of `jimsnab/scratch` (tlsscan)

A shallow embedding of `aggregation.go` and of `updateHandler` in `main.go`, followed by
theorems about the aggregation fold (`addVisit`), the update window, the snapshot store
and the CSV cell escaping.

Conventions of the embedding

* A Go `string` is a Lean `String`; a Go `error` is its message, a `String`.
* A `time.Time` is its instant, an `Int` number of nanoseconds since the Unix epoch.  The
  location of a `time.Time` is only read by `now.Year()`, `now.Month()`, `now.Day()` in
  `updateHandler`; there it is the offset of the local zone, a separate input.
* A Go `map[string]*requestSource` is a function `String → Option requestSource`; the
  pointers stored in the map and in `Pages` are never shared, so records are values.
* The collaborators that live outside the two source files (`whoIs`, `getVisits`, the
  JSON codec, the file system) are inputs of the functions that call them.
-/

namespace Scratch

/-! ## Data model (aggregation.go, lines 11-31) -/

/-- Instant of a `time.Time`: nanoseconds since 1970-01-01T00:00:00Z. -/
abbrev Time := Int

/-- Go `time.Second`, a duration in nanoseconds. -/
def second : Int := 1000000000

/-- Go `time.Hour`, a duration in nanoseconds. -/
def hour : Int := 3600 * second

/-- Go `time.UnixMilli`: the instant `msec` milliseconds after the epoch. -/
def unixMilli (msec : Int) : Time := msec * 1000000

/-- The zero `time.Time`, 0001-01-01T00:00:00Z. -/
def zeroTime : Time := -62135596800 * second

/-- A Go `map[string]string`; `none` is the nil map. -/
abbrev InfoMap := Option (List (String × String))

/-- Go struct `entryPage`. -/
structure entryPage where
  Url : String
  FirstAccess : Time
  LastAccess : Time
deriving DecidableEq, Repr

/-- Go struct `requestSource`. -/
structure requestSource where
  Ip : String
  Info : InfoMap
  Pages : List entryPage
  Hits : Int
deriving DecidableEq, Repr

/-- Go struct `requestSourcesDb`. -/
structure requestSourcesDb where
  Data : String → Option requestSource
  LastUpdate : Time
  SiteId : String
  dbPath : String

/-- Modelled from the spec: the visit record type is declared outside the two source
files; these are the three fields `addVisit` reads (`ClientIPs`, `EntryPage`, and
`StartTime`, an int64 count of milliseconds since the epoch). -/
structure impervaVisit where
  ClientIPs : List String
  EntryPage : String
  StartTime : Int
deriving DecidableEq, Repr

/-- Two's complement wrap-around of a Go `int` (64 bits). -/
def wrapInt64 (x : Int) : Int := (x + 2 ^ 63) % 2 ^ 64 - 2 ^ 63

/-- Function `newRequestSourcesDb` (lines 33-38). -/
def newRequestSourcesDb (siteId : String) : requestSourcesDb :=
  { Data := fun _ => none, LastUpdate := zeroTime, SiteId := siteId, dbPath := "" }

/-- Assignment `rs.Data[ip] = entry`. -/
def requestSourcesDb.setEntry (rs : requestSourcesDb) (ip : String) (entry : requestSource) :
    requestSourcesDb :=
  { rs with Data := fun k => if k = ip then some entry else rs.Data k }

/-! ## addVisit (aggregation.go, lines 69-113) -/

/-- The scan of lines 87-93: index of the first page whose `Url` is `url`, `none` when the
loop ends with `ep == nil`. -/
def findPage (url : String) : List entryPage → Option Nat
  | [] => none
  | p :: ps => if p.Url = url then some 0 else (findPage url ps).map (· + 1)

/-- Lines 103-109: widen the window of the page found to include `access`. -/
def widen (access : Time) (ep : entryPage) : entryPage :=
  let ep1 := if access < ep.FirstAccess then { ep with FirstAccess := access } else ep
  if access > ep1.LastAccess then { ep1 with LastAccess := access } else ep1

/-- Write through the pointer `ep`: apply `f` to the page at index `i`. -/
def updatePage (f : entryPage → entryPage) : Nat → List entryPage → List entryPage
  | _, [] => []
  | 0, p :: ps => f p :: ps
  | i + 1, p :: ps => p :: updatePage f i ps

/-- Lines 87-110: find the page of the visit's entry URL, append it when it is missing
and widen it otherwise. -/
def recordPage (visit : impervaVisit) (pages : List entryPage) : List entryPage :=
  match findPage visit.EntryPage pages with
  | none =>
    pages ++ [{ Url := visit.EntryPage
                FirstAccess := unixMilli visit.StartTime
                LastAccess := unixMilli visit.StartTime }]
  | some i => updatePage (widen (unixMilli visit.StartTime)) i pages

/-- Lines 85-110 for one record: `entry.Hits++`, then the page bookkeeping. -/
def hit (visit : impervaVisit) (entry : requestSource) : requestSource :=
  { entry with Hits := wrapInt64 (entry.Hits + 1), Pages := recordPage visit entry.Pages }

/-- State after a call of `addVisit`: the snapshot as mutated, the IPs `whoIs` has been
called with so far (oldest first), and the error returned (`none` for nil). -/
structure AddVisitResult where
  rs : requestSourcesDb
  calls : List String
  err : Option String

/-- The loop of `addVisit` over the remaining client IPs.  `whoIs calls ip` is the outcome
of the lookup of `ip` when `calls` are the lookups made before it. -/
def addVisitLoop (whoIs : List String → String → Except String InfoMap) (visit : impervaVisit) :
    List String → requestSourcesDb → List String → AddVisitResult
  | [], rs, calls => { rs := rs, calls := calls, err := none }
  | ip :: ips, rs, calls =>
    match rs.Data ip with
    | some entry => addVisitLoop whoIs visit ips (rs.setEntry ip (hit visit entry)) calls
    | none =>
      let entry : requestSource := { Ip := ip, Info := none, Pages := [], Hits := 0 }
      match whoIs calls ip with
      | .error e => { rs := rs.setEntry ip entry, calls := calls ++ [ip], err := some e }
      | .ok info =>
        addVisitLoop whoIs visit ips (rs.setEntry ip (hit visit { entry with Info := info }))
          (calls ++ [ip])

/-- Method `requestSourcesDb.addVisit` (lines 69-113). -/
def addVisit (whoIs : List String → String → Except String InfoMap) (rs : requestSourcesDb)
    (calls : List String) (visit : impervaVisit) : AddVisitResult :=
  addVisitLoop whoIs visit visit.ClientIPs rs calls

/-- The loop `for _, visit := range visits` of `scanHandler` (lines 105-113) and
`updateHandler` (lines 240-246): fold the visits in order, stop at the first error. -/
def addVisits (whoIs : List String → String → Except String InfoMap) :
    List impervaVisit → requestSourcesDb → List String → AddVisitResult
  | [], rs, calls => { rs := rs, calls := calls, err := none }
  | visit :: visits, rs, calls =>
    match (addVisit whoIs rs calls visit).err with
    | some e =>
      { rs := (addVisit whoIs rs calls visit).rs
        calls := (addVisit whoIs rs calls visit).calls
        err := some e }
    | none =>
      addVisits whoIs visits (addVisit whoIs rs calls visit).rs
        (addVisit whoIs rs calls visit).calls

/-! ## CSV cell escaping (aggregation.go, lines 158-164) -/

/-- Go `strings.ContainsAny(s, chars)`: some code point of `chars` occurs in `s`. -/
def containsAny (s chars : List Char) : Bool :=
  s.any fun c => chars.contains c

/-- Whether `s` begins with `old`. -/
def startsWith : List Char → List Char → Bool
  | _, [] => true
  | [], _ :: _ => false
  | c :: cs, o :: os => c == o && startsWith cs os

/-- Left-to-right scan of `strings.ReplaceAll`; `skip` counts the characters of the last
match of `old` that are still to be passed over.  An empty `old` matches before every
character and at the end, as in Go. -/
def replaceAllFrom (old new : List Char) : Nat → List Char → List Char
  | _, [] => if old.isEmpty then new else []
  | skip + 1, _ :: cs => replaceAllFrom old new skip cs
  | 0, c :: cs =>
    if startsWith (c :: cs) old then new ++ replaceAllFrom old new (old.length - 1) cs
    else c :: replaceAllFrom old new 0 cs

/-- Go `strings.ReplaceAll(s, old, new)`: every non-overlapping instance of `old`,
found left to right, replaced by `new`. -/
def replaceAll (s old new : List Char) : List Char :=
  replaceAllFrom old new 0 s

/-- Function `escapeCsvCell` (lines 158-164). -/
def escapeCsvCell (text : String) : String :=
  if containsAny text.data ['"', ','] then
    String.mk (['"'] ++ replaceAll text.data ['"'] ['"', '"'] ++ ['"'])
  else
    text

/-! ## Snapshot store (aggregation.go, lines 40-67) -/

/-- What the file system holds at a path: nothing, something `os.ReadFile` fails on with
the given error, or a file with the given content. -/
inductive FileState where
  | absent
  | unreadable (err : String)
  | content (bytes : String)
deriving DecidableEq, Repr

/-- The file system, by path. -/
abbrev FileSystem := String → FileState

/-- Go `os.ReadFile`. -/
def readFile (fs : FileSystem) (path : String) : Except String String :=
  match fs path with
  | .absent => .error ("open " ++ path ++ ": no such file or directory")
  | .unreadable err => .error err
  | .content bytes => .ok bytes

/-- Go `os.WriteFile(path, content, 0644)`.  `failure` is `none` when the write succeeds;
`some (err, left)` when it fails with `err`, leaving `left` at `path`. -/
def writeFile (failure : Option (String × FileState)) (fs : FileSystem) (path content : String) :
    FileSystem × Option String :=
  match failure with
  | none => (fun p => if p = path then .content content else fs p, none)
  | some (err, left) => (fun p => if p = path then left else fs p, some err)

/-- The message of the error built on line 53. -/
def siteMismatch (dbPath found expected : String) : String :=
  "the database at " ++ dbPath ++ " is for site " ++ found ++ ", not " ++ expected

/-- Function `loadRequestSourcesDb` (lines 40-58).  `unmarshal` is `json.Unmarshal` into a
zero `requestSourcesDb`. -/
def loadRequestSourcesDb (unmarshal : String → Except String requestSourcesDb) (fs : FileSystem)
    (siteId dbPath : String) : Except String requestSourcesDb :=
  match readFile fs dbPath with
  | .error err => .error err
  | .ok content =>
    match unmarshal content with
    | .error err => .error err
    | .ok rsDb =>
      if siteId ≠ "" ∧ rsDb.SiteId ≠ siteId then
        .error (siteMismatch dbPath rsDb.SiteId siteId)
      else
        .ok { rsDb with dbPath := dbPath }

/-- Method `requestSourcesDb.save` (lines 60-67): the file system afterwards and the error
returned.  `marshal` is `json.Marshal`. -/
def save (marshal : requestSourcesDb → Except String String)
    (failure : Option (String × FileState)) (fs : FileSystem) (rsDb : requestSourcesDb) :
    FileSystem × Option String :=
  match marshal rsDb with
  | .error err => (fs, some err)
  | .ok content => writeFile failure fs rsDb.dbPath content

/-! ## Calendar (Go package `time`) -/

/-- Year, month and day of the proleptic Gregorian calendar of the day `z` days after
1970-01-01. -/
def civilFromDays (z : Int) : Int × Int × Int :=
  let z1 := z + 719468
  let era := z1 / 146097
  let doe := z1 % 146097
  let yoe := (doe - doe / 1460 + doe / 36524 - doe / 146096) / 365
  let doy := doe - (365 * yoe + yoe / 4 - yoe / 100)
  let mp := (5 * doy + 2) / 153
  let d := doy - (153 * mp + 2) / 5 + 1
  let m := if mp < 10 then mp + 3 else mp - 9
  (if m ≤ 2 then yoe + era * 400 + 1 else yoe + era * 400, m, d)

/-- Number of days from 1970-01-01 to the given day of the proleptic Gregorian calendar
(month in 1..12). -/
def daysFromCivil (y m d : Int) : Int :=
  let y1 := if m ≤ 2 then y - 1 else y
  let era := y1 / 400
  let yoe := y1 % 400
  let doy := (153 * (if m > 2 then m - 3 else m + 9) + 2) / 5 + d - 1
  let doe := yoe * 365 + yoe / 4 - yoe / 100 + doy
  era * 146097 + doe - 719468

/-- Go `time.Date(y, m, d, hh, mm, ss, 0, time.UTC)`. -/
def date (y m d hh mm ss : Int) : Time :=
  (daysFromCivil y m d * 86400 + hh * 3600 + mm * 60 + ss) * second

/-- Values `now.Year()`, `now.Month()`, `now.Day()` of a `time.Time` whose location is
`localOffset` seconds east of UTC. -/
def localDate (now : Time) (localOffset : Int) : Int × Int × Int :=
  civilFromDays ((now / second + localOffset) / 86400)

/-- First instant of the UTC day that contains `t`. -/
def utcDayStart (t : Time) : Time := t / second / 86400 * 86400 * second

/-! ## Incremental driver (main.go, lines 178-259) -/

/-- The arguments `updateHandler` reads from `args`; `eventCodes` is `none` when
`args["eventCodes"]` is nil. -/
structure UpdateArgs where
  dbPath : String
  siteId : String
  eventCodes : Option (List String)
  maxPages : Int

/-- Arguments of a call of `getVisits`. -/
structure VisitQuery where
  siteId : String
  start : Time
  finish : Time
  maxPages : Int
  codes : List String
deriving DecidableEq, Repr

/-- What `updateHandler` takes from outside the two source files: the clock (`time.Now()`
is the instant `now` in a zone `localOffset` seconds east of UTC), the JSON codec, the
outcome of `os.WriteFile`, and the collaborators `getVisits` and `whoIs`. -/
structure World where
  now : Time
  localOffset : Int
  unmarshal : String → Except String requestSourcesDb
  marshal : requestSourcesDb → Except String String
  writeFailure : Option (String × FileState)
  getVisits : VisitQuery → Except String (List impervaVisit)
  whoIs : List String → String → Except String InfoMap

/-- The return statement at which `updateHandler` leaves. -/
inductive Outcome where
  | loadFailed (err : String)
  | upToDate
  | noCodes
  | fetchFailed (err : String)
  | visitFailed (err : String)
  | saveFailed (err : String)
  | complete
deriving DecidableEq, Repr

/-- Effects of a run of `updateHandler`: the file system afterwards, the call of
`getVisits` made (if any), the IPs `whoIs` was called with, the snapshot `save` was called
on (if any), and where the run ended.  Console output is left out. -/
structure UpdateResult where
  fs : FileSystem
  requested : Option VisitQuery
  calls : List String
  saved : Option requestSourcesDb
  outcome : Outcome

/-- Line 186: `end`, computed from the clock. -/
def windowEnd (now : Time) (localOffset : Int) : Time :=
  date (localDate now localOffset).1 (localDate now localOffset).2.1
    (localDate now localOffset).2.2 0 0 0 + -1 * second

/-- Lines 188-208: the snapshot to update and the start of the window, or the result of
the run when it ends here. -/
def openSnapshot (w : World) (fs : FileSystem) (args : UpdateArgs) :
    Except UpdateResult (requestSourcesDb × Time) :=
  match fs args.dbPath with
  | .absent =>
    .ok ({ newRequestSourcesDb args.siteId with dbPath := args.dbPath },
      windowEnd w.now w.localOffset + -30 * 24 * hour)
  | _ =>
    match loadRequestSourcesDb w.unmarshal fs args.siteId args.dbPath with
    | .error err =>
      .error { fs := fs, requested := none, calls := [], saved := none, outcome := .loadFailed err }
    | .ok rsDb =>
      if ¬ (windowEnd w.now w.localOffset > rsDb.LastUpdate) then
        .error { fs := fs, requested := none, calls := [], saved := none, outcome := .upToDate }
      else
        .ok (rsDb, rsDb.LastUpdate + 1 * second)

/-- Lines 234-258, with the snapshot, the window and the codes in hand. -/
def fetchAndFold (w : World) (fs : FileSystem) (rsDb : requestSourcesDb) (query : VisitQuery) :
    UpdateResult :=
  match w.getVisits query with
  | .error err =>
    { fs := fs, requested := some query, calls := [], saved := none, outcome := .fetchFailed err }
  | .ok visits =>
    match (addVisits w.whoIs visits rsDb []).err with
    | some err =>
      { fs := fs, requested := some query, calls := (addVisits w.whoIs visits rsDb []).calls
        saved := none, outcome := .visitFailed err }
    | none =>
      let folded := (addVisits w.whoIs visits rsDb []).rs
      let final : requestSourcesDb := { folded with LastUpdate := query.finish }
      match save w.marshal w.writeFailure fs final with
      | (fs1, some err) =>
        { fs := fs1, requested := some query, calls := (addVisits w.whoIs visits rsDb []).calls
          saved := some final, outcome := .saveFailed err }
      | (fs1, none) =>
        { fs := fs1, requested := some query, calls := (addVisits w.whoIs visits rsDb []).calls
          saved := some final, outcome := .complete }

/-- Function `updateHandler` (lines 178-259). -/
def updateHandler (w : World) (fs : FileSystem) (args : UpdateArgs) : UpdateResult :=
  match openSnapshot w fs args with
  | .error result => result
  | .ok (rsDb, start) =>
    let codes := args.eventCodes.getD []
    if codes.length = 0 then
      { fs := fs, requested := none, calls := [], saved := none, outcome := .noCodes }
    else
      fetchAndFold w fs rsDb
        { siteId := args.siteId, start := start, finish := windowEnd w.now w.localOffset
          maxPages := if args.maxPages < 1 then 1000 else args.maxPages, codes := codes }

/-! ## Properties of snapshots used in the statements -/

/-- Page uniqueness: within every record the URLs of the pages are pairwise distinct. -/
def PagesUnique (rs : requestSourcesDb) : Prop :=
  ∀ ip entry, rs.Data ip = some entry → (entry.Pages.map (·.Url)).Nodup

/-- Every page of every record has `FirstAccess ≤ LastAccess`. -/
def WindowsOrdered (rs : requestSourcesDb) : Prop :=
  ∀ ip entry, rs.Data ip = some entry → ∀ p ∈ entry.Pages, p.FirstAccess ≤ p.LastAccess

/-- Every page of `old` is still there in `new`, at the same position and with the same
URL, its first access no later and its last access no earlier than before. -/
def PagesWidened (old new : List entryPage) : Prop :=
  ∀ (i : Nat) (p : entryPage), old[i]? = some p →
    ∃ q : entryPage, new[i]? = some q ∧ q.Url = p.Url ∧ q.FirstAccess ≤ p.FirstAccess ∧
      p.LastAccess ≤ q.LastAccess

/-- Pages recorded for `ip`, none when `ip` is not a key of `Data`. -/
def pagesOf (rs : requestSourcesDb) (ip : String) : List entryPage :=
  match rs.Data ip with
  | some entry => entry.Pages
  | none => []

/-- Hit count recorded for `ip`, zero when `ip` is not a key of `Data`. -/
def hitsOf (rs : requestSourcesDb) (ip : String) : Int :=
  match rs.Data ip with
  | some entry => entry.Hits
  | none => 0

/-- All client IPs of a sequence of visits, in order, with repetitions. -/
def allIps (visits : List impervaVisit) : List String :=
  visits.flatMap (·.ClientIPs)

/-- What a call of `addVisit` that returns no error has done to the record of `ip`, for
the client IPs `ips`, taking the snapshot from `rs` to `final`. -/
def Recorded (visit : impervaVisit) (ips : List String) (rs final : requestSourcesDb)
    (ip : String) : Prop :=
  (ip ∉ ips → final.Data ip = rs.Data ip) ∧
  (ip ∈ ips → (final.Data ip).isSome) ∧
  pagesOf final ip = (if ip ∈ ips then recordPage visit (pagesOf rs ip) else pagesOf rs ip) ∧
  (0 ≤ hitsOf rs ip → hitsOf rs ip + ips.count ip < 2 ^ 63 →
    hitsOf final ip = hitsOf rs ip + ips.count ip)

/-- Snapshots that sequences of `addVisit` calls, with any lookups and whether the calls
fail or not, produce from a new snapshot. -/
inductive Reachable : requestSourcesDb → Prop where
  | fresh (siteId : String) : Reachable (newRequestSourcesDb siteId)
  | visited (whoIs : List String → String → Except String InfoMap) (rs : requestSourcesDb)
      (calls : List String) (visit : impervaVisit) :
      Reachable rs → Reachable (addVisit whoIs rs calls visit).rs

/-! ## Concrete inputs -/

/-- A lookup that succeeds for every IP. -/
def whoIsUp : List String → String → Except String InfoMap :=
  fun _ ip => .ok (some [("OrgName", "owner of " ++ ip)])

/-- A lookup that fails for every IP. -/
def whoIsDown : List String → String → Except String InfoMap :=
  fun _ _ => .error "whois: connection refused"

/-- A snapshot of site A with one record: `1.2.3.4`, seen once on `/login` at 1000 ms. -/
def oneRecord : requestSourcesDb :=
  { Data := fun k =>
      if k = "1.2.3.4" then
        some { Ip := "1.2.3.4", Info := some []
               Pages := [{ Url := "/login", FirstAccess := unixMilli 1000
                           LastAccess := unixMilli 1000 }]
               Hits := 1 }
      else none
    LastUpdate := zeroTime, SiteId := "A", dbPath := "./s.db" }

/-- An idle codec, lookup and visit source on the clock of scenario S1: 10:00:00 UTC on
2024-03-15, local zone UTC; the visit source returns one visit. -/
def worldS1 : World :=
  { now := date 2024 3 15 10 0 0
    localOffset := 0
    unmarshal := fun _ => .error "unexpected end of JSON input"
    marshal := fun rs => .ok ("snapshot of site " ++ rs.SiteId)
    writeFailure := none
    getVisits := fun _ =>
      .ok [{ ClientIPs := ["1.2.3.4"], EntryPage := "/login", StartTime := 1710000000000 }]
    whoIs := whoIsUp }

/-- The world of scenario S1 with the process in a zone 14 hours east of UTC. -/
def worldS1East : World := { worldS1 with localOffset := 50400 }

/-- The world of scenario S1 at 23:00:00 UTC on 2024-03-15, in a zone two hours east of
UTC, where it is 01:00:00 on 2024-03-16. -/
def worldLate : World := { worldS1 with now := date 2024 3 15 23 0 0, localOffset := 7200 }

/-- The world of scenario S1 with the visit source failing. -/
def worldNoFetch : World := { worldS1 with getVisits := fun _ => .error "503 from upstream" }

/-- A file system with no file. -/
def emptyDisk : FileSystem := fun _ => .absent

/-- A file system with one snapshot file, at `./s.db`. -/
def diskS5 : FileSystem := fun p => if p = "./s.db" then .content "snapshot of site A" else .absent

/-- A decoder that reads every file as the snapshot `oneRecord` of site A. -/
def unmarshalS5 : String → Except String requestSourcesDb := fun _ => .ok oneRecord

/-- Arguments `update ./s.db --site A --code R1`. -/
def argsS1 : UpdateArgs :=
  { dbPath := "./s.db", siteId := "A", eventCodes := some ["R1"], maxPages := 0 }

/-- The world of scenario S1 with a snapshot of site A on disk, a visit from an IP not
seen before, and the lookup down. -/
def worldNoWhoIs : World :=
  { worldS1 with
    unmarshal := unmarshalS5
    getVisits := fun _ =>
      .ok [{ ClientIPs := ["9.9.9.9"], EntryPage := "/login", StartTime := 1710000000000 }]
    whoIs := whoIsDown }

/-! ## Pages -/

theorem widen_url (access : Time) (ep : entryPage) : (widen access ep).Url = ep.Url := by
  simp only [widen]
  split_ifs <;> rfl

theorem widen_first (access : Time) (ep : entryPage) :
    (widen access ep).FirstAccess = min ep.FirstAccess access := by
  simp only [widen]
  split_ifs with h1 h2 h2 <;> simp only [] at h2 ⊢ <;> unfold Time at * <;> omega

theorem widen_last (access : Time) (ep : entryPage) :
    (widen access ep).LastAccess = max ep.LastAccess access := by
  simp only [widen]
  split_ifs with h1 h2 h2 <;> simp only [] at h2 ⊢ <;> unfold Time at * <;> omega

theorem recordPage_nil (visit : impervaVisit) :
    recordPage visit [] =
      [{ Url := visit.EntryPage, FirstAccess := unixMilli visit.StartTime
         LastAccess := unixMilli visit.StartTime }] := rfl

theorem recordPage_cons (visit : impervaVisit) (p : entryPage) (ps : List entryPage) :
    recordPage visit (p :: ps) =
      if p.Url = visit.EntryPage then widen (unixMilli visit.StartTime) p :: ps
      else p :: recordPage visit ps := by
  unfold recordPage
  by_cases h : p.Url = visit.EntryPage
  · simp [findPage, h, updatePage]
  · simp only [findPage, h, if_false]
    cases findPage visit.EntryPage ps <;> simp [updatePage]

theorem recordPage_urls (visit : impervaVisit) (ps : List entryPage) :
    (recordPage visit ps).map (·.Url) =
      if visit.EntryPage ∈ ps.map (·.Url) then ps.map (·.Url)
      else ps.map (·.Url) ++ [visit.EntryPage] := by
  induction ps with
  | nil => simp [recordPage_nil]
  | cons p ps ih =>
    rw [recordPage_cons]
    by_cases h : p.Url = visit.EntryPage
    · simp [h, widen_url]
    · have h' : ¬ visit.EntryPage = p.Url := fun e => h e.symm
      simp only [h, if_false, List.map_cons, ih, List.mem_cons, h', false_or]
      split_ifs <;> simp

theorem recordPage_nodup (visit : impervaVisit) (ps : List entryPage)
    (h : (ps.map (·.Url)).Nodup) : ((recordPage visit ps).map (·.Url)).Nodup := by
  rw [recordPage_urls]
  split_ifs with hm
  · exact h
  · rw [List.nodup_append]
    refine ⟨h, List.nodup_singleton _, ?_⟩
    intro u hu hu'
    simp only [List.mem_singleton] at hu'
    exact hm (hu' ▸ hu)

theorem recordPage_ordered (visit : impervaVisit) (ps : List entryPage)
    (h : ∀ p ∈ ps, p.FirstAccess ≤ p.LastAccess) :
    ∀ p ∈ recordPage visit ps, p.FirstAccess ≤ p.LastAccess := by
  induction ps with
  | nil =>
    intro p hp
    simp only [recordPage_nil, List.mem_singleton] at hp
    subst hp
    exact le_refl _
  | cons q qs ih =>
    intro p hp
    rw [recordPage_cons] at hp
    have hq := h q (List.mem_cons_self _ _)
    have hqs : ∀ p ∈ qs, p.FirstAccess ≤ p.LastAccess :=
      fun p hp => h p (List.mem_cons_of_mem _ hp)
    split_ifs at hp with hu
    · rcases List.mem_cons.mp hp with rfl | hp
      · rw [widen_first, widen_last]
        unfold Time at *
        omega
      · exact hqs p hp
    · rcases List.mem_cons.mp hp with rfl | hp
      · exact hq
      · exact ih hqs p hp

theorem pagesWidened_refl (ps : List entryPage) : PagesWidened ps ps :=
  fun _ p hp => ⟨p, hp, rfl, le_refl _, le_refl _⟩

theorem pagesWidened_trans {a b c : List entryPage} (hab : PagesWidened a b)
    (hbc : PagesWidened b c) : PagesWidened a c := by
  intro i p hp
  obtain ⟨q, hq, hu, hf, hl⟩ := hab i p hp
  obtain ⟨r, hr, hu', hf', hl'⟩ := hbc i q hq
  exact ⟨r, hr, hu'.trans hu, le_trans hf' hf, le_trans hl hl'⟩

theorem recordPage_widened (visit : impervaVisit) (ps : List entryPage) :
    PagesWidened ps (recordPage visit ps) := by
  induction ps with
  | nil => intro i p hp; simp at hp
  | cons q qs ih =>
    intro i p hp
    rw [recordPage_cons]
    split_ifs with hu
    · cases i with
      | zero =>
        simp only [List.getElem?_cons_zero, Option.some.injEq] at hp
        subst hp
        refine ⟨widen (unixMilli visit.StartTime) q, by simp, widen_url _ _, ?_, ?_⟩
        · rw [widen_first]; exact min_le_left _ _
        · rw [widen_last]; exact le_max_left _ _
      | succ j =>
        simp only [List.getElem?_cons_succ] at hp
        exact ⟨p, by simpa using hp, rfl, le_refl _, le_refl _⟩
    · cases i with
      | zero =>
        simp only [List.getElem?_cons_zero, Option.some.injEq] at hp
        subst hp
        exact ⟨_, by simp, rfl, le_refl _, le_refl _⟩
      | succ j =>
        simp only [List.getElem?_cons_succ] at hp
        obtain ⟨r, hr, h3⟩ := ih j p hp
        exact ⟨r, by simpa using hr, h3⟩

/-- When no page has the visit's URL, a page with both timestamps at the visit's start is
appended. -/
theorem recordPage_absent (visit : impervaVisit) (ps : List entryPage)
    (h : ∀ p ∈ ps, p.Url ≠ visit.EntryPage) :
    recordPage visit ps =
      ps ++ [{ Url := visit.EntryPage, FirstAccess := unixMilli visit.StartTime
               LastAccess := unixMilli visit.StartTime }] := by
  induction ps with
  | nil => rfl
  | cons q qs ih =>
    rw [recordPage_cons, if_neg (h q (List.mem_cons_self _ _)),
      ih fun p hp => h p (List.mem_cons_of_mem _ hp)]
    rfl

/-- When page `i` is the first with the visit's URL, it is the one widened. -/
theorem recordPage_present (visit : impervaVisit) (ps : List entryPage) (i : Nat) (p : entryPage)
    (hp : ps[i]? = some p) (hu : p.Url = visit.EntryPage)
    (hfirst : ∀ j q, j < i → ps[j]? = some q → q.Url ≠ visit.EntryPage) :
    (recordPage visit ps)[i]? = some (widen (unixMilli visit.StartTime) p) := by
  induction ps generalizing i with
  | nil => simp at hp
  | cons q qs ih =>
    rw [recordPage_cons]
    cases i with
    | zero =>
      simp only [List.getElem?_cons_zero, Option.some.injEq] at hp
      subst hp
      simp [hu]
    | succ j =>
      have hq : q.Url ≠ visit.EntryPage := hfirst 0 q (Nat.succ_pos _) (by simp)
      simp only [List.getElem?_cons_succ] at hp
      rw [if_neg hq, List.getElem?_cons_succ]
      exact ih j hp fun k r hk hr => hfirst (k + 1) r (Nat.succ_lt_succ hk) (by simpa using hr)

theorem recordPage_idem (visit : impervaVisit) (ps : List entryPage) :
    recordPage visit (recordPage visit ps) = recordPage visit ps := by
  induction ps with
  | nil =>
    rw [recordPage_nil, recordPage_cons, if_pos rfl]
    simp [widen]
  | cons q qs ih =>
    rw [recordPage_cons]
    split_ifs with hu
    · rw [recordPage_cons, if_pos (by rw [widen_url]; exact hu)]
      congr 1
      have h1 := widen_first (unixMilli visit.StartTime) q
      have h2 := widen_last (unixMilli visit.StartTime) q
      have e1 := widen_first (unixMilli visit.StartTime) (widen (unixMilli visit.StartTime) q)
      have e2 := widen_last (unixMilli visit.StartTime) (widen (unixMilli visit.StartTime) q)
      have e3 := widen_url (unixMilli visit.StartTime) (widen (unixMilli visit.StartTime) q)
      generalize widen (unixMilli visit.StartTime) (widen (unixMilli visit.StartTime) q) = a at *
      generalize widen (unixMilli visit.StartTime) q = b at *
      cases a; cases b
      simp only [entryPage.mk.injEq] at *
      unfold Time at *
      refine ⟨e3, ?_, ?_⟩ <;> omega
    · rw [recordPage_cons, if_neg hu, ih]

/-! ## The loop of addVisit, step by step -/

theorem setEntry_same (rs : requestSourcesDb) (ip : String) (entry : requestSource) :
    (rs.setEntry ip entry).Data ip = some entry := by
  simp [requestSourcesDb.setEntry]

theorem setEntry_other (rs : requestSourcesDb) (ip k : String) (entry : requestSource)
    (h : k ≠ ip) : (rs.setEntry ip entry).Data k = rs.Data k := by
  simp [requestSourcesDb.setEntry, h]

theorem addVisitLoop_nil (whoIs : List String → String → Except String InfoMap)
    (visit : impervaVisit) (rs : requestSourcesDb) (calls : List String) :
    addVisitLoop whoIs visit [] rs calls = { rs := rs, calls := calls, err := none } := rfl

theorem addVisitLoop_known (whoIs : List String → String → Except String InfoMap)
    (visit : impervaVisit) (ip : String) (ips : List String) (rs : requestSourcesDb)
    (calls : List String) (entry : requestSource) (h : rs.Data ip = some entry) :
    addVisitLoop whoIs visit (ip :: ips) rs calls =
      addVisitLoop whoIs visit ips (rs.setEntry ip (hit visit entry)) calls := by
  simp only [addVisitLoop, h]

theorem addVisitLoop_failed (whoIs : List String → String → Except String InfoMap)
    (visit : impervaVisit) (ip : String) (ips : List String) (rs : requestSourcesDb)
    (calls : List String) (e : String) (h : rs.Data ip = none) (hw : whoIs calls ip = .error e) :
    addVisitLoop whoIs visit (ip :: ips) rs calls =
      { rs := rs.setEntry ip { Ip := ip, Info := none, Pages := [], Hits := 0 }
        calls := calls ++ [ip], err := some e } := by
  simp only [addVisitLoop, h, hw]

theorem addVisitLoop_looked_up (whoIs : List String → String → Except String InfoMap)
    (visit : impervaVisit) (ip : String) (ips : List String) (rs : requestSourcesDb)
    (calls : List String) (info : InfoMap) (h : rs.Data ip = none)
    (hw : whoIs calls ip = .ok info) :
    addVisitLoop whoIs visit (ip :: ips) rs calls =
      addVisitLoop whoIs visit ips
        (rs.setEntry ip (hit visit { Ip := ip, Info := info, Pages := [], Hits := 0 }))
        (calls ++ [ip]) := by
  simp only [addVisitLoop, h, hw]

/-- Induction over the elementary steps of one `addVisit`: a property of the snapshot and
of the call log that every step keeps, holds when the loop ends, however it ends. -/
theorem addVisitLoop_induct (whoIs : List String → String → Except String InfoMap)
    (visit : impervaVisit) (P : requestSourcesDb → List String → Prop) (ips : List String)
    (hKnown : ∀ rs calls ip entry, ip ∈ ips → P rs calls → rs.Data ip = some entry →
      P (rs.setEntry ip (hit visit entry)) calls)
    (hFailed : ∀ rs calls ip e, ip ∈ ips → P rs calls → rs.Data ip = none →
      whoIs calls ip = .error e →
      P (rs.setEntry ip { Ip := ip, Info := none, Pages := [], Hits := 0 }) (calls ++ [ip]))
    (hLooked : ∀ rs calls ip info, ip ∈ ips → P rs calls → rs.Data ip = none →
      whoIs calls ip = .ok info →
      P (rs.setEntry ip (hit visit { Ip := ip, Info := info, Pages := [], Hits := 0 }))
        (calls ++ [ip]))
    (rs : requestSourcesDb) (calls : List String) (h : P rs calls) :
    P (addVisitLoop whoIs visit ips rs calls).rs (addVisitLoop whoIs visit ips rs calls).calls := by
  induction ips generalizing rs calls with
  | nil => exact h
  | cons ip ips ih =>
    have ih' := ih (fun rs calls k entry hk => hKnown rs calls k entry (List.mem_cons_of_mem _ hk))
      (fun rs calls k e hk => hFailed rs calls k e (List.mem_cons_of_mem _ hk))
      (fun rs calls k info hk => hLooked rs calls k info (List.mem_cons_of_mem _ hk))
    cases hd : rs.Data ip with
    | some entry =>
      rw [addVisitLoop_known whoIs visit ip ips rs calls entry hd]
      exact ih' _ _ (hKnown rs calls ip entry (List.mem_cons_self _ _) h hd)
    | none =>
      cases hw : whoIs calls ip with
      | error e =>
        rw [addVisitLoop_failed whoIs visit ip ips rs calls e hd hw]
        exact hFailed rs calls ip e (List.mem_cons_self _ _) h hd hw
      | ok info =>
        rw [addVisitLoop_looked_up whoIs visit ip ips rs calls info hd hw]
        exact ih' _ _ (hLooked rs calls ip info (List.mem_cons_self _ _) h hd hw)

theorem addVisits_nil (whoIs : List String → String → Except String InfoMap)
    (rs : requestSourcesDb) (calls : List String) :
    addVisits whoIs [] rs calls = { rs := rs, calls := calls, err := none } := rfl

theorem addVisits_stop (whoIs : List String → String → Except String InfoMap)
    (visit : impervaVisit) (visits : List impervaVisit) (rs : requestSourcesDb)
    (calls : List String) (e : String) (h : (addVisit whoIs rs calls visit).err = some e) :
    addVisits whoIs (visit :: visits) rs calls =
      { rs := (addVisit whoIs rs calls visit).rs, calls := (addVisit whoIs rs calls visit).calls
        err := some e } := by
  simp only [addVisits, h]

theorem addVisits_continue (whoIs : List String → String → Except String InfoMap)
    (visit : impervaVisit) (visits : List impervaVisit) (rs : requestSourcesDb)
    (calls : List String) (h : (addVisit whoIs rs calls visit).err = none) :
    addVisits whoIs (visit :: visits) rs calls =
      addVisits whoIs visits (addVisit whoIs rs calls visit).rs
        (addVisit whoIs rs calls visit).calls := by
  simp only [addVisits, h]

/-- Induction over the elementary steps of a fold of visits. -/
theorem addVisits_induct (whoIs : List String → String → Except String InfoMap)
    (P : requestSourcesDb → List String → Prop) (visits : List impervaVisit)
    (hKnown : ∀ visit rs calls ip entry, visit ∈ visits → ip ∈ visit.ClientIPs → P rs calls →
      rs.Data ip = some entry → P (rs.setEntry ip (hit visit entry)) calls)
    (hFailed : ∀ visit rs calls ip e, visit ∈ visits → ip ∈ visit.ClientIPs → P rs calls →
      rs.Data ip = none → whoIs calls ip = .error e →
      P (rs.setEntry ip { Ip := ip, Info := none, Pages := [], Hits := 0 }) (calls ++ [ip]))
    (hLooked : ∀ visit rs calls ip info, visit ∈ visits → ip ∈ visit.ClientIPs → P rs calls →
      rs.Data ip = none → whoIs calls ip = .ok info →
      P (rs.setEntry ip (hit visit { Ip := ip, Info := info, Pages := [], Hits := 0 }))
        (calls ++ [ip]))
    (rs : requestSourcesDb) (calls : List String) (h : P rs calls) :
    P (addVisits whoIs visits rs calls).rs (addVisits whoIs visits rs calls).calls := by
  induction visits generalizing rs calls with
  | nil => exact h
  | cons visit visits ih =>
    have step : P (addVisit whoIs rs calls visit).rs (addVisit whoIs rs calls visit).calls :=
      addVisitLoop_induct whoIs visit P visit.ClientIPs
        (fun rs calls ip entry hip => hKnown visit rs calls ip entry (List.mem_cons_self _ _) hip)
        (fun rs calls ip e hip => hFailed visit rs calls ip e (List.mem_cons_self _ _) hip)
        (fun rs calls ip info hip => hLooked visit rs calls ip info (List.mem_cons_self _ _) hip)
        rs calls h
    cases he : (addVisit whoIs rs calls visit).err with
    | some e =>
      rw [addVisits_stop whoIs visit visits rs calls e he]
      exact step
    | none =>
      rw [addVisits_continue whoIs visit visits rs calls he]
      exact ih (fun v rs calls ip entry hv => hKnown v rs calls ip entry (List.mem_cons_of_mem _ hv))
        (fun v rs calls ip e hv => hFailed v rs calls ip e (List.mem_cons_of_mem _ hv))
        (fun v rs calls ip info hv => hLooked v rs calls ip info (List.mem_cons_of_mem _ hv))
        _ _ step

/-! ## Invariants of the elementary steps -/

theorem pagesUnique_setEntry (rs : requestSourcesDb) (ip : String) (entry : requestSource)
    (h : PagesUnique rs) (he : (entry.Pages.map (·.Url)).Nodup) :
    PagesUnique (rs.setEntry ip entry) := by
  intro k e hk
  by_cases hki : k = ip
  · subst hki
    rw [setEntry_same] at hk
    cases hk
    exact he
  · rw [setEntry_other rs ip k entry hki] at hk
    exact h k e hk

theorem windowsOrdered_setEntry (rs : requestSourcesDb) (ip : String) (entry : requestSource)
    (h : WindowsOrdered rs) (he : ∀ p ∈ entry.Pages, p.FirstAccess ≤ p.LastAccess) :
    WindowsOrdered (rs.setEntry ip entry) := by
  intro k e hk
  by_cases hki : k = ip
  · subst hki
    rw [setEntry_same] at hk
    cases hk
    exact he
  · rw [setEntry_other rs ip k entry hki] at hk
    exact h k e hk

theorem pagesUnique_addVisits (whoIs : List String → String → Except String InfoMap)
    (visits : List impervaVisit) (rs : requestSourcesDb) (calls : List String)
    (h : PagesUnique rs) : PagesUnique (addVisits whoIs visits rs calls).rs := by
  refine addVisits_induct whoIs (fun rs _ => PagesUnique rs) visits ?_ ?_ ?_ rs calls h
  · intro visit rs calls ip entry _ _ hP hd
    exact pagesUnique_setEntry rs ip _ hP (recordPage_nodup visit _ (hP ip entry hd))
  · intro visit rs calls ip e _ _ hP _ _
    exact pagesUnique_setEntry rs ip _ hP List.nodup_nil
  · intro visit rs calls ip info _ _ hP _ _
    exact pagesUnique_setEntry rs ip _ hP (recordPage_nodup visit [] List.nodup_nil)

theorem windowsOrdered_addVisits (whoIs : List String → String → Except String InfoMap)
    (visits : List impervaVisit) (rs : requestSourcesDb) (calls : List String)
    (h : WindowsOrdered rs) : WindowsOrdered (addVisits whoIs visits rs calls).rs := by
  refine addVisits_induct whoIs (fun rs _ => WindowsOrdered rs) visits ?_ ?_ ?_ rs calls h
  · intro visit rs calls ip entry _ _ hP hd
    exact windowsOrdered_setEntry rs ip _ hP (recordPage_ordered visit _ (hP ip entry hd))
  · intro visit rs calls ip e _ _ hP _ _
    exact windowsOrdered_setEntry rs ip _ hP (fun p hp => absurd hp (List.not_mem_nil _))
  · intro visit rs calls ip info _ _ hP _ _
    exact windowsOrdered_setEntry rs ip _ hP
      (recordPage_ordered visit _ (fun p hp => absurd hp (List.not_mem_nil _)))

/-- One visit is the fold of a one-element sequence, up to the text of the error. -/
theorem addVisits_single (whoIs : List String → String → Except String InfoMap)
    (visit : impervaVisit) (rs : requestSourcesDb) (calls : List String) :
    (addVisits whoIs [visit] rs calls).rs = (addVisit whoIs rs calls visit).rs ∧
      (addVisits whoIs [visit] rs calls).calls = (addVisit whoIs rs calls visit).calls ∧
      (addVisits whoIs [visit] rs calls).err = (addVisit whoIs rs calls visit).err := by
  cases he : (addVisit whoIs rs calls visit).err with
  | some e => rw [addVisits_stop whoIs visit [] rs calls e he]; exact ⟨rfl, rfl, rfl⟩
  | none => rw [addVisits_continue whoIs visit [] rs calls he]; exact ⟨rfl, rfl, rfl⟩

/-! ## What a successful addVisit records -/

theorem wrapInt64_succ (x : Int) (h0 : 0 ≤ x) (h1 : x + 1 < 2 ^ 63) :
    wrapInt64 (x + 1) = x + 1 := by
  unfold wrapInt64
  omega

theorem pagesOf_setEntry_same (rs : requestSourcesDb) (ip : String) (entry : requestSource) :
    pagesOf (rs.setEntry ip entry) ip = entry.Pages := by
  simp [pagesOf, setEntry_same]

theorem pagesOf_setEntry_other (rs : requestSourcesDb) (ip k : String) (entry : requestSource)
    (h : k ≠ ip) : pagesOf (rs.setEntry ip entry) k = pagesOf rs k := by
  simp [pagesOf, setEntry_other rs ip k entry h]

theorem hitsOf_setEntry_same (rs : requestSourcesDb) (ip : String) (entry : requestSource) :
    hitsOf (rs.setEntry ip entry) ip = entry.Hits := by
  simp [hitsOf, setEntry_same]

theorem hitsOf_setEntry_other (rs : requestSourcesDb) (ip k : String) (entry : requestSource)
    (h : k ≠ ip) : hitsOf (rs.setEntry ip entry) k = hitsOf rs k := by
  simp [hitsOf, setEntry_other rs ip k entry h]

/-- One step of the loop followed by the rest of it: the record of the step's IP has been
hit once (`entry0` is the record before the step, fresh when the IP was new). -/
theorem recorded_step (visit : impervaVisit) (ip0 : String) (ips : List String)
    (rs final : requestSourcesDb) (entry0 : requestSource)
    (hp : pagesOf rs ip0 = entry0.Pages) (hh : hitsOf rs ip0 = entry0.Hits)
    (ih : ∀ ip, Recorded visit ips (rs.setEntry ip0 (hit visit entry0)) final ip) (ip : String) :
    Recorded visit (ip0 :: ips) rs final ip := by
  obtain ⟨ih1, ih2, ih3, ih4⟩ := ih ip
  by_cases hip : ip = ip0
  · subst hip
    have hcount : (ip :: ips).count ip = ips.count ip + 1 := by simp
    have hpages : pagesOf (rs.setEntry ip (hit visit entry0)) ip =
        recordPage visit (pagesOf rs ip) := by
      rw [pagesOf_setEntry_same, hp]; rfl
    have hhits : hitsOf (rs.setEntry ip (hit visit entry0)) ip = wrapInt64 (hitsOf rs ip + 1) := by
      rw [hitsOf_setEntry_same, hh]; rfl
    refine ⟨fun h => absurd (List.mem_cons_self _ _) h, fun _ => ?_, ?_, ?_⟩
    · by_cases hmem : ip ∈ ips
      · exact ih2 hmem
      · rw [ih1 hmem, setEntry_same]; rfl
    · rw [if_pos (List.mem_cons_self _ _), ih3, hpages]
      split_ifs
      · exact recordPage_idem visit _
      · rfl
    · intro h0 hb
      rw [hcount] at hb ⊢
      have hw : wrapInt64 (hitsOf rs ip + 1) = hitsOf rs ip + 1 :=
        wrapInt64_succ _ h0 (by push_cast at hb; omega)
      rw [ih4 (by rw [hhits, hw]; omega) (by rw [hhits, hw]; push_cast at hb; omega), hhits, hw]
      push_cast
      omega
  · have hne : ip0 ≠ ip := fun e => hip e.symm
    have hcount : (ip0 :: ips).count ip = ips.count ip := by
      simp [List.count_cons, hne]
    have hmem : ip ∈ ip0 :: ips ↔ ip ∈ ips := by simp [hip]
    refine ⟨fun h => ?_, fun h => ih2 (hmem.mp h), ?_, ?_⟩
    · rw [ih1 (fun h' => h (hmem.mpr h')), setEntry_other rs ip0 ip _ hip]
    · rw [ih3, pagesOf_setEntry_other rs ip0 ip _ hip]
      simp only [hmem]
    · rw [hcount, ← hitsOf_setEntry_other rs ip0 ip (hit visit entry0) hip]
      exact ih4

/-- When the loop of `addVisit` ends without error, every IP of the list has a record,
with the visit's page recorded and one hit per occurrence; other records are untouched. -/
theorem addVisitLoop_recorded (whoIs : List String → String → Except String InfoMap)
    (visit : impervaVisit) (ips : List String) (rs : requestSourcesDb) (calls : List String)
    (h : (addVisitLoop whoIs visit ips rs calls).err = none) (ip : String) :
    Recorded visit ips rs (addVisitLoop whoIs visit ips rs calls).rs ip := by
  induction ips generalizing rs calls ip with
  | nil =>
    refine ⟨fun _ => rfl, fun h => absurd h (List.not_mem_nil _), by simp [addVisitLoop_nil], ?_⟩
    intro _ _
    simp [addVisitLoop_nil]
  | cons ip0 ips ih =>
    cases hd : rs.Data ip0 with
    | some entry =>
      rw [addVisitLoop_known whoIs visit ip0 ips rs calls entry hd] at h ⊢
      exact recorded_step visit ip0 ips rs _ entry (by simp [pagesOf, hd]) (by simp [hitsOf, hd])
        (fun k => ih _ _ h k) ip
    | none =>
      cases hw : whoIs calls ip0 with
      | error e =>
        rw [addVisitLoop_failed whoIs visit ip0 ips rs calls e hd hw] at h
        cases h
      | ok info =>
        rw [addVisitLoop_looked_up whoIs visit ip0 ips rs calls info hd hw] at h ⊢
        exact recorded_step visit ip0 ips rs _ { Ip := ip0, Info := info, Pages := [], Hits := 0 }
          (by simp [pagesOf, hd]) (by simp [hitsOf, hd]) (fun k => ih _ _ h k) ip

/-- With every lookup succeeding, the loop of `addVisit` ends without error. -/
theorem addVisitLoop_no_error (whoIs : List String → String → Except String InfoMap)
    (hok : ∀ calls ip, ∃ info, whoIs calls ip = .ok info)
    (visit : impervaVisit) (ips : List String) (rs : requestSourcesDb) (calls : List String) :
    (addVisitLoop whoIs visit ips rs calls).err = none := by
  induction ips generalizing rs calls with
  | nil => rfl
  | cons ip0 ips ih =>
    cases hd : rs.Data ip0 with
    | some entry =>
      rw [addVisitLoop_known whoIs visit ip0 ips rs calls entry hd]
      exact ih _ _
    | none =>
      obtain ⟨info, hw⟩ := hok calls ip0
      rw [addVisitLoop_looked_up whoIs visit ip0 ips rs calls info hd hw]
      exact ih _ _

theorem addVisits_no_error (whoIs : List String → String → Except String InfoMap)
    (hok : ∀ calls ip, ∃ info, whoIs calls ip = .ok info)
    (visits : List impervaVisit) (rs : requestSourcesDb) (calls : List String) :
    (addVisits whoIs visits rs calls).err = none := by
  induction visits generalizing rs calls with
  | nil => rfl
  | cons visit visits ih =>
    have he : (addVisit whoIs rs calls visit).err = none :=
      addVisitLoop_no_error whoIs hok visit visit.ClientIPs rs calls
    rw [addVisits_continue whoIs visit visits rs calls he]
    exact ih _ _

/-- Hits and keys after a fold of visits that ends without error. -/
theorem addVisits_hits (whoIs : List String → String → Except String InfoMap)
    (visits : List impervaVisit) (rs : requestSourcesDb) (calls : List String)
    (h : (addVisits whoIs visits rs calls).err = none) (ip : String) :
    (ip ∉ allIps visits → (addVisits whoIs visits rs calls).rs.Data ip = rs.Data ip) ∧
      (ip ∈ allIps visits → ((addVisits whoIs visits rs calls).rs.Data ip).isSome) ∧
      (0 ≤ hitsOf rs ip → hitsOf rs ip + (allIps visits).count ip < 2 ^ 63 →
        hitsOf (addVisits whoIs visits rs calls).rs ip =
          hitsOf rs ip + (allIps visits).count ip) := by
  induction visits generalizing rs calls with
  | nil =>
    refine ⟨fun _ => rfl, fun h => ?_, fun _ _ => ?_⟩
    · simp [allIps] at h
    · simp [allIps, addVisits_nil]
  | cons visit visits ih =>
    cases he : (addVisit whoIs rs calls visit).err with
    | some e =>
      rw [addVisits_stop whoIs visit visits rs calls e he] at h
      cases h
    | none =>
      rw [addVisits_continue whoIs visit visits rs calls he] at h ⊢
      obtain ⟨s1, s2, _, s4⟩ := addVisitLoop_recorded whoIs visit visit.ClientIPs rs calls he ip
      obtain ⟨i1, i2, i3⟩ := ih _ _ h
      have hall : allIps (visit :: visits) = visit.ClientIPs ++ allIps visits := by
        simp [allIps]
      have hcount : (allIps (visit :: visits)).count ip =
          visit.ClientIPs.count ip + (allIps visits).count ip := by
        rw [hall, List.count_append]
      refine ⟨fun hn => ?_, fun hm => ?_, fun h0 hb => ?_⟩
      · rw [hall, List.mem_append, not_or] at hn
        rw [i1 hn.2]
        exact s1 hn.1
      · rw [hall, List.mem_append] at hm
        by_cases hv : ip ∈ allIps visits
        · exact i2 hv
        · rw [i1 hv]
          exact s2 (hm.resolve_right hv)
      · rw [hcount] at hb ⊢
        push_cast at hb ⊢
        have hs := s4 h0 (by omega)
        have hs' : hitsOf (addVisit whoIs rs calls visit).rs ip =
            hitsOf rs ip + visit.ClientIPs.count ip := hs
        rw [i3 (by rw [hs']; omega) (by rw [hs']; omega), hs']
        omega

/-! ## What every addVisit keeps, whether it fails or not -/

/-- Records present before a fold are present after it, with the same `Ip` and `Info`,
and with every page kept in place, its window no narrower. -/
theorem addVisits_keeps (whoIs : List String → String → Except String InfoMap)
    (visits : List impervaVisit) (rs0 : requestSourcesDb) (calls0 : List String)
    (ip : String) (entry : requestSource) (h : rs0.Data ip = some entry) :
    ∃ kept, (addVisits whoIs visits rs0 calls0).rs.Data ip = some kept ∧ kept.Ip = entry.Ip ∧
      kept.Info = entry.Info ∧ PagesWidened entry.Pages kept.Pages := by
  refine addVisits_induct whoIs
    (fun rs _ => ∃ kept, rs.Data ip = some kept ∧ kept.Ip = entry.Ip ∧
      kept.Info = entry.Info ∧ PagesWidened entry.Pages kept.Pages)
    visits ?_ ?_ ?_ rs0 calls0 ⟨entry, h, rfl, rfl, pagesWidened_refl _⟩
  · rintro visit rs calls k e _ _ ⟨kept, hk, h1, h2, h3⟩ hd
    by_cases hki : ip = k
    · subst hki
      have heq : e = kept := Option.some.inj (hd.symm.trans hk)
      rw [heq]
      exact ⟨hit visit kept, setEntry_same _ _ _, h1, h2,
        pagesWidened_trans h3 (recordPage_widened visit _)⟩
    · exact ⟨kept, by rw [setEntry_other rs k ip _ hki]; exact hk, h1, h2, h3⟩
  · rintro visit rs calls k e _ _ ⟨kept, hk, h1, h2, h3⟩ hd _
    have hki : ip ≠ k := fun e => by rw [e, hd] at hk; cases hk
    exact ⟨kept, by rw [setEntry_other rs k ip _ hki]; exact hk, h1, h2, h3⟩
  · rintro visit rs calls k info _ _ ⟨kept, hk, h1, h2, h3⟩ hd _
    have hki : ip ≠ k := fun e => by rw [e, hd] at hk; cases hk
    exact ⟨kept, by rw [setEntry_other rs k ip _ hki]; exact hk, h1, h2, h3⟩

theorem addVisit_keeps (whoIs : List String → String → Except String InfoMap)
    (visit : impervaVisit) (rs0 : requestSourcesDb) (calls0 : List String)
    (ip : String) (entry : requestSource) (h : rs0.Data ip = some entry) :
    ∃ kept, (addVisit whoIs rs0 calls0 visit).rs.Data ip = some kept ∧ kept.Ip = entry.Ip ∧
      kept.Info = entry.Info ∧ PagesWidened entry.Pages kept.Pages := by
  rw [← (addVisits_single whoIs visit rs0 calls0).1]
  exact addVisits_keeps whoIs [visit] rs0 calls0 ip entry h

/-! ## The log of whoIs calls -/

/-- The log has no repetition and every IP in it is a key, provided that holds at the
start. -/
theorem addVisits_calls_nodup (whoIs : List String → String → Except String InfoMap)
    (visits : List impervaVisit) (rs0 : requestSourcesDb) (calls0 : List String)
    (h : calls0.Nodup ∧ ∀ ip ∈ calls0, rs0.Data ip ≠ none) :
    (addVisits whoIs visits rs0 calls0).calls.Nodup ∧
      ∀ ip ∈ (addVisits whoIs visits rs0 calls0).calls,
        (addVisits whoIs visits rs0 calls0).rs.Data ip ≠ none := by
  have fresh : ∀ (rs : requestSourcesDb) (calls : List String) (k : String) (e : requestSource),
      (calls.Nodup ∧ ∀ ip ∈ calls, rs.Data ip ≠ none) → rs.Data k = none →
      (calls ++ [k]).Nodup ∧ ∀ ip ∈ calls ++ [k], (rs.setEntry k e).Data ip ≠ none := by
    rintro rs calls k e ⟨hn, hk⟩ hd
    constructor
    · rw [List.nodup_append]
      refine ⟨hn, List.nodup_singleton _, ?_⟩
      intro u hu hu'
      simp only [List.mem_singleton] at hu'
      exact hk u hu (hu' ▸ hd)
    · intro ip hip
      by_cases hki : ip = k
      · rw [hki, setEntry_same]; simp
      · rw [setEntry_other rs k ip _ hki]
        rcases List.mem_append.mp hip with hc | hc
        · exact hk ip hc
        · exact absurd (List.mem_singleton.mp hc) hki
  refine addVisits_induct whoIs
    (fun rs calls => calls.Nodup ∧ ∀ ip ∈ calls, rs.Data ip ≠ none) visits ?_ ?_ ?_ rs0 calls0 h
  · rintro visit rs calls k e _ _ ⟨hn, hk⟩ hd
    refine ⟨hn, fun ip hip => ?_⟩
    by_cases hki : ip = k
    · rw [hki, setEntry_same]; simp
    · rw [setEntry_other rs k ip _ hki]; exact hk ip hip
  · intro visit rs calls k e _ _ hP hd _
    exact fresh rs calls k _ hP hd
  · intro visit rs calls k info _ _ hP hd _
    exact fresh rs calls k _ hP hd

/-- Every key is in the log, provided that holds at the start. -/
theorem addVisits_keys_logged (whoIs : List String → String → Except String InfoMap)
    (visits : List impervaVisit) (rs0 : requestSourcesDb) (calls0 : List String)
    (h : ∀ ip, rs0.Data ip ≠ none → ip ∈ calls0) :
    ∀ ip, (addVisits whoIs visits rs0 calls0).rs.Data ip ≠ none →
      ip ∈ (addVisits whoIs visits rs0 calls0).calls := by
  have fresh : ∀ (rs : requestSourcesDb) (calls : List String) (k : String) (e : requestSource),
      (∀ ip, rs.Data ip ≠ none → ip ∈ calls) →
      ∀ ip, (rs.setEntry k e).Data ip ≠ none → ip ∈ calls ++ [k] := by
    intro rs calls k e hP ip hip
    by_cases hki : ip = k
    · simp [hki]
    · rw [setEntry_other rs k ip _ hki] at hip
      exact List.mem_append_left _ (hP ip hip)
  refine addVisits_induct whoIs (fun rs calls => ∀ ip, rs.Data ip ≠ none → ip ∈ calls)
    visits ?_ ?_ ?_ rs0 calls0 h
  · intro visit rs calls k e _ _ hP hd ip hip
    by_cases hki : ip = k
    · exact hP ip (by rw [hki, hd]; simp)
    · rw [setEntry_other rs k ip _ hki] at hip
      exact hP ip hip
  · intro visit rs calls k e _ _ hP _ _
    exact fresh rs calls k _ hP
  · intro visit rs calls k info _ _ hP _ _
    exact fresh rs calls k _ hP

/-- The calls added by a fold are for IPs of the visits that were not keys at the start;
keys stay keys. -/
theorem addVisits_calls_new (whoIs : List String → String → Except String InfoMap)
    (visits : List impervaVisit) (rs0 : requestSourcesDb) (calls0 : List String) :
    (∀ ip, rs0.Data ip ≠ none → (addVisits whoIs visits rs0 calls0).rs.Data ip ≠ none) ∧
      ∃ added, (addVisits whoIs visits rs0 calls0).calls = calls0 ++ added ∧
        ∀ ip ∈ added, rs0.Data ip = none ∧ ip ∈ allIps visits := by
  have fresh : ∀ (visit : impervaVisit) (rs : requestSourcesDb) (calls : List String)
      (k : String) (e : requestSource), visit ∈ visits → k ∈ visit.ClientIPs →
      ((∀ ip, rs0.Data ip ≠ none → rs.Data ip ≠ none) ∧
        ∃ added, calls = calls0 ++ added ∧ ∀ ip ∈ added, rs0.Data ip = none ∧ ip ∈ allIps visits) →
      rs.Data k = none →
      ((∀ ip, rs0.Data ip ≠ none → (rs.setEntry k e).Data ip ≠ none) ∧
        ∃ added, calls ++ [k] = calls0 ++ added ∧
          ∀ ip ∈ added, rs0.Data ip = none ∧ ip ∈ allIps visits) := by
    rintro visit rs calls k e hv hk ⟨hkeys, added, hc, hadded⟩ hd
    refine ⟨fun ip hip => ?_, added ++ [k], by rw [hc, List.append_assoc], fun ip hip => ?_⟩
    · by_cases hki : ip = k
      · rw [hki, setEntry_same]; simp
      · rw [setEntry_other rs k ip _ hki]; exact hkeys ip hip
    · rcases List.mem_append.mp hip with hc' | hc'
      · exact hadded ip hc'
      · rw [List.mem_singleton.mp hc']
        refine ⟨?_, ?_⟩
        · by_contra hne
          exact hkeys k hne hd
        · simp only [allIps, List.mem_flatMap]
          exact ⟨visit, hv, hk⟩
  refine addVisits_induct whoIs
    (fun rs calls => (∀ ip, rs0.Data ip ≠ none → rs.Data ip ≠ none) ∧
      ∃ added, calls = calls0 ++ added ∧ ∀ ip ∈ added, rs0.Data ip = none ∧ ip ∈ allIps visits)
    visits ?_ ?_ ?_ rs0 calls0 ⟨fun _ h => h, [], by simp, by simp⟩
  · rintro visit rs calls k e _ _ ⟨hkeys, hadded⟩ hd
    refine ⟨fun ip hip => ?_, hadded⟩
    by_cases hki : ip = k
    · rw [hki, setEntry_same]; simp
    · rw [setEntry_other rs k ip _ hki]; exact hkeys ip hip
  · intro visit rs calls k e hv hk hP hd _
    exact fresh visit rs calls k _ hv hk hP hd
  · intro visit rs calls k info hv hk hP hd _
    exact fresh visit rs calls k _ hv hk hP hd

/-! ## Claims about addVisit -/

/-- C1 (the code departs from the claim): when the first client IP of a visit is not a key
of `Data` and its lookup fails with `e`, `addVisit` returns `e`, and afterwards `Data`
does hold a record for that IP, created on line 76 before the lookup: no info, no page,
no hit.  Every later fold finds the IP present and keeps the record without info. -/
theorem addVisit_failed_lookup_leaves_record
    (whoIs : List String → String → Except String InfoMap) (rs : requestSourcesDb)
    (calls : List String) (visit : impervaVisit) (ip : String) (rest : List String) (e : String)
    (hips : visit.ClientIPs = ip :: rest) (hnew : rs.Data ip = none)
    (hfail : whoIs calls ip = .error e) :
    (addVisit whoIs rs calls visit).err = some e ∧
      (addVisit whoIs rs calls visit).rs.Data ip =
        some { Ip := ip, Info := none, Pages := [], Hits := 0 } ∧
      ∀ (whoIs2 : List String → String → Except String InfoMap) (visits : List impervaVisit)
        (calls2 : List String),
        ∃ kept, (addVisits whoIs2 visits (addVisit whoIs rs calls visit).rs calls2).rs.Data ip =
          some kept ∧ kept.Info = none := by
  have hrun : addVisit whoIs rs calls visit =
      { rs := rs.setEntry ip { Ip := ip, Info := none, Pages := [], Hits := 0 }
        calls := calls ++ [ip], err := some e } := by
    unfold addVisit
    rw [hips]
    exact addVisitLoop_failed whoIs visit ip rest rs calls e hnew hfail
  rw [hrun]
  refine ⟨rfl, setEntry_same _ _ _, fun whoIs2 visits calls2 => ?_⟩
  obtain ⟨kept, hk, _, hinfo, _⟩ := addVisits_keeps whoIs2 visits
    (rs.setEntry ip { Ip := ip, Info := none, Pages := [], Hits := 0 }) calls2 ip _
    (setEntry_same _ _ _)
  exact ⟨kept, hk, hinfo⟩

/-- C1 at a concrete input: a new snapshot, one visit from `203.0.113.7`, lookup down. -/
theorem addVisit_failed_lookup_leaves_record_witness :
    (newRequestSourcesDb "A").Data "203.0.113.7" = none ∧
      whoIsDown [] "203.0.113.7" = .error "whois: connection refused" ∧
      (addVisit whoIsDown (newRequestSourcesDb "A") []
        { ClientIPs := ["203.0.113.7"], EntryPage := "/login", StartTime := 1000 }).err =
        some "whois: connection refused" ∧
      (addVisit whoIsDown (newRequestSourcesDb "A") []
        { ClientIPs := ["203.0.113.7"], EntryPage := "/login", StartTime := 1000 }).rs.Data
          "203.0.113.7" =
        some { Ip := "203.0.113.7", Info := none, Pages := [], Hits := 0 } :=
  ⟨rfl, rfl,
    (addVisit_failed_lookup_leaves_record whoIsDown (newRequestSourcesDb "A") []
      { ClientIPs := ["203.0.113.7"], EntryPage := "/login", StartTime := 1000 }
      "203.0.113.7" [] "whois: connection refused" rfl rfl rfl).1,
    (addVisit_failed_lookup_leaves_record whoIsDown (newRequestSourcesDb "A") []
      { ClientIPs := ["203.0.113.7"], EntryPage := "/login", StartTime := 1000 }
      "203.0.113.7" [] "whois: connection refused" rfl rfl rfl).2.1⟩

/-- C2: fold any sequence of visits into a new snapshot, every lookup succeeding and the
client IPs of the visits numbering fewer than 2^63 in all (the range of the Go `int`
that counts hits).  The fold ends without error, and for every IP the record's `Hits` is
the number of occurrences of the IP in the `ClientIPs` lists, repetitions inside a visit
counted; an IP that does not occur has no record. -/
theorem addVisits_hits_accounting (whoIs : List String → String → Except String InfoMap)
    (visits : List impervaVisit) (siteId : String) (calls : List String) (ip : String)
    (hok : ∀ calls ip, ∃ info, whoIs calls ip = .ok info)
    (hlen : (allIps visits).length < 2 ^ 63) :
    (addVisits whoIs visits (newRequestSourcesDb siteId) calls).err = none ∧
      ((addVisits whoIs visits (newRequestSourcesDb siteId) calls).rs.Data ip).map (·.Hits) =
        if (allIps visits).count ip = 0 then none
        else some ((allIps visits).count ip : Int) := by
  have herr := addVisits_no_error whoIs hok visits (newRequestSourcesDb siteId) calls
  obtain ⟨h1, h2, h3⟩ := addVisits_hits whoIs visits (newRequestSourcesDb siteId) calls herr ip
  refine ⟨herr, ?_⟩
  split_ifs with hc
  · rw [h1 (List.count_eq_zero.mp hc)]
    rfl
  · have hmem : ip ∈ allIps visits := by
      by_contra hn
      exact hc (List.count_eq_zero.mpr hn)
    have hle : (allIps visits).count ip ≤ (allIps visits).length := List.count_le_length _ _
    have hzero : hitsOf (newRequestSourcesDb siteId) ip = 0 := rfl
    rw [hzero] at h3
    have hhits := h3 (le_refl _) (by omega)
    have hsome := h2 hmem
    cases hd : (addVisits whoIs visits (newRequestSourcesDb siteId) calls).rs.Data ip with
    | none => rw [hd] at hsome; cases hsome
    | some entry =>
      have hentry : hitsOf (addVisits whoIs visits (newRequestSourcesDb siteId) calls).rs ip =
          entry.Hits := by
        simp only [hitsOf, hd]
      rw [hentry] at hhits
      simp [hhits]

/-- C2 at scenario S4: one visit with client IPs a, b, a gives a two hits, b one hit, and
c no record. -/
theorem addVisits_hits_accounting_witness :
    (∀ calls ip, ∃ info, whoIsUp calls ip = .ok info) ∧
      ((addVisits whoIsUp [{ ClientIPs := ["a", "b", "a"], EntryPage := "/", StartTime := 0 }]
        (newRequestSourcesDb "A") []).rs.Data "a").map (·.Hits) = some 2 ∧
      ((addVisits whoIsUp [{ ClientIPs := ["a", "b", "a"], EntryPage := "/", StartTime := 0 }]
        (newRequestSourcesDb "A") []).rs.Data "b").map (·.Hits) = some 1 ∧
      ((addVisits whoIsUp [{ ClientIPs := ["a", "b", "a"], EntryPage := "/", StartTime := 0 }]
        (newRequestSourcesDb "A") []).rs.Data "c").map (·.Hits) = none :=
  ⟨fun _ _ => ⟨_, rfl⟩,
    (addVisits_hits_accounting whoIsUp
      [{ ClientIPs := ["a", "b", "a"], EntryPage := "/", StartTime := 0 }] "A" [] "a"
      (fun _ _ => ⟨_, rfl⟩) (by decide)).2.trans (by decide),
    (addVisits_hits_accounting whoIsUp
      [{ ClientIPs := ["a", "b", "a"], EntryPage := "/", StartTime := 0 }] "A" [] "b"
      (fun _ _ => ⟨_, rfl⟩) (by decide)).2.trans (by decide),
    (addVisits_hits_accounting whoIsUp
      [{ ClientIPs := ["a", "b", "a"], EntryPage := "/", StartTime := 0 }] "A" [] "c"
      (fun _ _ => ⟨_, rfl⟩) (by decide)).2.trans (by decide)⟩

/-- C3: page uniqueness is an invariant of `addVisit`.  If the URLs of the pages of every
record are pairwise distinct before a call, they are after it, whether the call returns an
error or not; a new snapshot has the property, and so has every snapshot reachable from
a new one by calls of `addVisit`. -/
theorem addVisit_pages_unique :
    (∀ (whoIs : List String → String → Except String InfoMap) (rs : requestSourcesDb)
        (calls : List String) (visit : impervaVisit),
        PagesUnique rs → PagesUnique (addVisit whoIs rs calls visit).rs) ∧
      (∀ siteId, PagesUnique (newRequestSourcesDb siteId)) ∧
      (∀ rs, Reachable rs → PagesUnique rs) := by
  have step : ∀ (whoIs : List String → String → Except String InfoMap) (rs : requestSourcesDb)
      (calls : List String) (visit : impervaVisit),
      PagesUnique rs → PagesUnique (addVisit whoIs rs calls visit).rs := by
    intro whoIs rs calls visit h
    rw [← (addVisits_single whoIs visit rs calls).1]
    exact pagesUnique_addVisits whoIs [visit] rs calls h
  have fresh : ∀ siteId, PagesUnique (newRequestSourcesDb siteId) := by
    intro siteId ip entry h
    simp [newRequestSourcesDb] at h
  refine ⟨step, fresh, fun rs hr => ?_⟩
  induction hr with
  | fresh siteId => exact fresh siteId
  | visited whoIs rs calls visit _ ih => exact step whoIs rs calls visit ih

/-- C3 at a concrete input: a failing visit and a succeeding one on a snapshot with one
page. -/
theorem addVisit_pages_unique_witness :
    PagesUnique oneRecord ∧
      PagesUnique (addVisit whoIsDown oneRecord []
        { ClientIPs := ["1.2.3.4", "9.9.9.9"], EntryPage := "/login", StartTime := 2000 }).rs ∧
      PagesUnique (addVisit whoIsUp oneRecord []
        { ClientIPs := ["1.2.3.4", "9.9.9.9"], EntryPage := "/admin", StartTime := 2000 }).rs :=
  have h : PagesUnique oneRecord := by
    intro ip entry hd
    simp only [oneRecord] at hd
    split_ifs at hd
    cases hd
    decide
  ⟨h, addVisit_pages_unique.1 whoIsDown oneRecord [] _ h,
    addVisit_pages_unique.1 whoIsUp oneRecord [] _ h⟩

/-- C4, as stated, fails when `addVisit` returns early: the visit lists `9.9.9.9` (new,
lookup down) before `1.2.3.4`, whose pages already contain `/login` with both timestamps
at 1000 ms.  The call returns the lookup error on line 80 before it reaches `1.2.3.4`, so
that page keeps last access 1000 ms, not max(1000 ms, 2000 ms) = 2000 ms. -/
theorem addVisit_early_return_skips_widening :
    WindowsOrdered oneRecord ∧
      oneRecord.Data "1.2.3.4" =
        some { Ip := "1.2.3.4", Info := some []
               Pages := [{ Url := "/login", FirstAccess := unixMilli 1000
                           LastAccess := unixMilli 1000 }]
               Hits := 1 } ∧
      (addVisit whoIsDown oneRecord []
        { ClientIPs := ["9.9.9.9", "1.2.3.4"], EntryPage := "/login", StartTime := 2000 }).err =
        some "whois: connection refused" ∧
      ((addVisit whoIsDown oneRecord []
        { ClientIPs := ["9.9.9.9", "1.2.3.4"], EntryPage := "/login", StartTime := 2000 }).rs.Data
          "1.2.3.4").map (·.Pages) =
        some [{ Url := "/login", FirstAccess := unixMilli 1000, LastAccess := unixMilli 1000 }] ∧
      max (unixMilli 1000) (unixMilli 2000) ≠ unixMilli 1000 := by
  refine ⟨?_, by decide, by decide, by decide, by decide⟩
  intro ip entry hd
  simp only [oneRecord] at hd
  split_ifs at hd
  cases hd
  decide

/-- C4, amended: on a snapshot whose pages all have `FirstAccess ≤ LastAccess`, after
`addVisit` (failed or not) every page still has `FirstAccess ≤ LastAccess`, and every page
that was there is still there, in place, its first access no later and its last access no
earlier.  When `addVisit` returns no error, for each IP of the visit: if its pages
contained the visit's URL, the first such page ends with first access
min(old, start) and last access max(old, start); if they did not (or the IP was new), one
page is appended with both timestamps at the visit's start. -/
theorem addVisit_windows (whoIs : List String → String → Except String InfoMap)
    (rs : requestSourcesDb) (calls : List String) (visit : impervaVisit)
    (h : WindowsOrdered rs) :
    WindowsOrdered (addVisit whoIs rs calls visit).rs ∧
      (∀ ip entry, rs.Data ip = some entry →
        ∃ kept, (addVisit whoIs rs calls visit).rs.Data ip = some kept ∧
          PagesWidened entry.Pages kept.Pages) ∧
      ((addVisit whoIs rs calls visit).err = none → ∀ ip ∈ visit.ClientIPs,
        (∀ (i : Nat) (p : entryPage), (pagesOf rs ip)[i]? = some p → p.Url = visit.EntryPage →
          (∀ (j : Nat) (q : entryPage), j < i → (pagesOf rs ip)[j]? = some q →
            q.Url ≠ visit.EntryPage) →
          ∃ kept, (addVisit whoIs rs calls visit).rs.Data ip = some kept ∧
            kept.Pages[i]? =
              some { Url := visit.EntryPage
                     FirstAccess := min p.FirstAccess (unixMilli visit.StartTime)
                     LastAccess := max p.LastAccess (unixMilli visit.StartTime) }) ∧
        ((∀ p ∈ pagesOf rs ip, p.Url ≠ visit.EntryPage) →
          ∃ kept, (addVisit whoIs rs calls visit).rs.Data ip = some kept ∧
            kept.Pages = pagesOf rs ip ++
              [{ Url := visit.EntryPage, FirstAccess := unixMilli visit.StartTime
                 LastAccess := unixMilli visit.StartTime }])) := by
  refine ⟨?_, ?_, ?_⟩
  · rw [← (addVisits_single whoIs visit rs calls).1]
    exact windowsOrdered_addVisits whoIs [visit] rs calls h
  · intro ip entry hd
    obtain ⟨kept, hk, _, _, hw⟩ := addVisit_keeps whoIs visit rs calls ip entry hd
    exact ⟨kept, hk, hw⟩
  · intro herr ip hip
    obtain ⟨_, hsome, hpages, _⟩ :=
      addVisitLoop_recorded whoIs visit visit.ClientIPs rs calls herr ip
    rw [if_pos hip] at hpages
    have hkey := hsome hip
    change ((addVisit whoIs rs calls visit).rs.Data ip).isSome = true at hkey
    change pagesOf (addVisit whoIs rs calls visit).rs ip = _ at hpages
    cases hd : (addVisit whoIs rs calls visit).rs.Data ip with
    | none => rw [hd] at hkey; cases hkey
    | some kept =>
      have hkept : kept.Pages = recordPage visit (pagesOf rs ip) := by
        rw [← hpages]
        simp only [pagesOf, hd]
      refine ⟨fun i p hp hu hfirst => ⟨kept, rfl, ?_⟩, fun habsent => ⟨kept, rfl, ?_⟩⟩
      · rw [hkept, recordPage_present visit _ i p hp hu hfirst]
        have e1 := widen_url (unixMilli visit.StartTime) p
        have e2 := widen_first (unixMilli visit.StartTime) p
        have e3 := widen_last (unixMilli visit.StartTime) p
        generalize widen (unixMilli visit.StartTime) p = w at *
        cases w
        simp only [] at e1 e2 e3
        simp only [Option.some.injEq, entryPage.mk.injEq]
        exact ⟨e1.trans hu, e2, e3⟩
      · rw [hkept, recordPage_absent visit _ habsent]

/-- C4 at scenario S3: `1.2.3.4` was seen on `/login` at 1000 ms and is seen there again
at 2000 ms; the one page ends with first access 1000 ms and last access 2000 ms. -/
theorem addVisit_windows_witness :
    WindowsOrdered oneRecord ∧
      WindowsOrdered (addVisit whoIsUp oneRecord []
        { ClientIPs := ["1.2.3.4"], EntryPage := "/login", StartTime := 2000 }).rs ∧
      ((addVisit whoIsUp oneRecord []
        { ClientIPs := ["1.2.3.4"], EntryPage := "/login", StartTime := 2000 }).rs.Data
          "1.2.3.4").map (·.Pages) =
        some [{ Url := "/login", FirstAccess := unixMilli 1000, LastAccess := unixMilli 2000 }] :=
  have h : WindowsOrdered oneRecord := by
    intro ip entry hd
    simp only [oneRecord] at hd
    split_ifs at hd
    cases hd
    decide
  ⟨h, (addVisit_windows whoIsUp oneRecord []
      { ClientIPs := ["1.2.3.4"], EntryPage := "/login", StartTime := 2000 } h).1, by decide⟩

/-- C5: fold any sequence of visits into a new snapshot, the log of `whoIs` calls empty
at the start.  However the fold ends, `whoIs` has been called exactly once for each IP
the fold reached (the keys of `Data`) and for no other IP, and only for IPs of the
visits; when the fold ends without error these are all the IPs of the visits.  In every
call of `addVisit`, on any snapshot, the lookups made are for IPs of the visit that were
not keys of `Data` before the call, and a record that was there keeps its `Info`, empty
or not.  In scenario S4 the calls are one for a, then one for b. -/
theorem whoIs_called_once (whoIs : List String → String → Except String InfoMap)
    (visits : List impervaVisit) (siteId : String) :
    (∀ ip, (addVisits whoIs visits (newRequestSourcesDb siteId) []).calls.count ip =
        if ((addVisits whoIs visits (newRequestSourcesDb siteId) []).rs.Data ip).isSome then 1
        else 0) ∧
      (∀ ip ∈ (addVisits whoIs visits (newRequestSourcesDb siteId) []).calls,
        ip ∈ allIps visits) ∧
      ((addVisits whoIs visits (newRequestSourcesDb siteId) []).err = none →
        ∀ ip, (addVisits whoIs visits (newRequestSourcesDb siteId) []).calls.count ip =
          if ip ∈ allIps visits then 1 else 0) ∧
      (∀ (rs : requestSourcesDb) (calls : List String) (visit : impervaVisit),
        ∃ added, (addVisit whoIs rs calls visit).calls = calls ++ added ∧
          ∀ ip ∈ added, rs.Data ip = none ∧ ip ∈ visit.ClientIPs) ∧
      (∀ (rs : requestSourcesDb) (calls : List String) (visit : impervaVisit) (ip : String)
        (entry : requestSource), rs.Data ip = some entry →
        ∃ kept, (addVisit whoIs rs calls visit).rs.Data ip = some kept ∧
          kept.Info = entry.Info) ∧
      (addVisits whoIsUp [{ ClientIPs := ["a", "b", "a"], EntryPage := "/", StartTime := 0 }]
        (newRequestSourcesDb "A") []).calls = ["a", "b"] := by
  obtain ⟨hnodup, hkeys⟩ := addVisits_calls_nodup whoIs visits (newRequestSourcesDb siteId) []
    ⟨List.nodup_nil, fun ip hip => absurd hip (List.not_mem_nil _)⟩
  have hlogged := addVisits_keys_logged whoIs visits (newRequestSourcesDb siteId) []
    (fun ip hip => absurd rfl hip)
  obtain ⟨_, added, hadded, hfrom⟩ :=
    addVisits_calls_new whoIs visits (newRequestSourcesDb siteId) []
  have hcount : ∀ ip, (addVisits whoIs visits (newRequestSourcesDb siteId) []).calls.count ip =
      if ((addVisits whoIs visits (newRequestSourcesDb siteId) []).rs.Data ip).isSome then 1
      else 0 := by
    intro ip
    split_ifs with hs
    · refine List.count_eq_one_of_mem hnodup (hlogged ip ?_)
      intro hn
      rw [hn] at hs
      cases hs
    · refine List.count_eq_zero.mpr fun hmem => hs ?_
      cases hd : (addVisits whoIs visits (newRequestSourcesDb siteId) []).rs.Data ip with
      | none => exact absurd hd (hkeys ip hmem)
      | some entry => rfl
  have hsub : ∀ ip ∈ (addVisits whoIs visits (newRequestSourcesDb siteId) []).calls,
      ip ∈ allIps visits := by
    intro ip hip
    rw [hadded, List.nil_append] at hip
    exact (hfrom ip hip).2
  refine ⟨hcount, hsub, fun herr ip => ?_, fun rs calls visit => ?_,
    fun rs calls visit ip entry hd => ?_, by decide⟩
  · rw [hcount ip]
    obtain ⟨h1, h2, _⟩ := addVisits_hits whoIs visits (newRequestSourcesDb siteId) [] herr ip
    by_cases hmem : ip ∈ allIps visits
    · rw [if_pos hmem, if_pos (h2 hmem)]
    · rw [if_neg hmem, h1 hmem]
      rfl
  · obtain ⟨_, added1, hc, hnew⟩ := addVisits_calls_new whoIs [visit] rs calls
    refine ⟨added1, by rw [← (addVisits_single whoIs visit rs calls).2.1]; exact hc, ?_⟩
    intro ip hip
    refine ⟨(hnew ip hip).1, ?_⟩
    have := (hnew ip hip).2
    simpa [allIps] using this
  · obtain ⟨kept, hk, _, hinfo, _⟩ := addVisit_keeps whoIs visit rs calls ip entry hd
    exact ⟨kept, hk, hinfo⟩

/-! ## CSV cell escaping -/

theorem contains_quote_comma (c : Char) :
    ['"', ','].contains c = true ↔ c = '"' ∨ c = ',' := by
  simp

theorem containsAny_quote_comma (s : List Char) :
    containsAny s ['"', ','] = true ↔ '"' ∈ s ∨ ',' ∈ s := by
  simp only [containsAny, List.any_eq_true, contains_quote_comma]
  constructor
  · rintro ⟨c, hc, rfl | rfl⟩
    · exact Or.inl hc
    · exact Or.inr hc
  · rintro (h | h)
    · exact ⟨_, h, Or.inl rfl⟩
    · exact ⟨_, h, Or.inr rfl⟩

theorem replaceAll_quote (s : List Char) :
    replaceAll s ['"'] ['"', '"'] = s.flatMap fun c => if c = '"' then ['"', '"'] else [c] := by
  unfold replaceAll
  induction s with
  | nil => rfl
  | cons c cs ih =>
    by_cases h : c = '"'
    · subst h
      simp only [replaceAllFrom, startsWith, beq_self_eq_true, Bool.and_self, if_true,
        List.length_singleton, Nat.sub_self, ih, List.flatMap_cons]
    · have hb : (c == '"') = false := by simpa using h
      simp only [replaceAllFrom, startsWith, hb, Bool.false_and, Bool.false_eq_true, if_false,
        ih, List.flatMap_cons, h]
      rfl

/-- C9: for every string, `escapeCsvCell` wraps the cell in double quotes, every inner
double quote doubled, when the cell contains a double quote or a comma, and returns the
cell as it is otherwise, whatever other characters it has.  In scenario S6 the cell
`a,"b` becomes `"a,""b"`; a cell with a newline and spaces is not wrapped. -/
theorem escapeCsvCell_spec (text : String) :
    escapeCsvCell text =
        (if '"' ∈ text.data ∨ ',' ∈ text.data then
          String.mk (['"'] ++
            (text.data.flatMap fun c => if c = '"' then ['"', '"'] else [c]) ++ ['"'])
        else text) ∧
      escapeCsvCell "a,\"b" = "\"a,\"\"b\"" ∧
      escapeCsvCell "two lines\nand spaces" = "two lines\nand spaces" := by
  refine ⟨?_, by decide, by decide⟩
  unfold escapeCsvCell
  by_cases h : '"' ∈ text.data ∨ ',' ∈ text.data
  · rw [if_pos ((containsAny_quote_comma _).mpr h), if_pos h, replaceAll_quote]
  · rw [if_neg (fun hc => h ((containsAny_quote_comma _).mp hc)), if_neg h]

/-! ## Snapshot store -/

/-- C10: when the file at `dbPath` is read and decoded to a snapshot of site
`decoded.SiteId`, `loadRequestSourcesDb` fails exactly when the expected site is not
empty and differs from the decoded one; the error is then the site-mismatch message,
which contains both site identifiers; otherwise the result is the decoded snapshot with
`dbPath` set to the path given and `Data`, `LastUpdate`, `SiteId` as decoded. -/
theorem loadRequestSourcesDb_site_binding (unmarshal : String → Except String requestSourcesDb)
    (fs : FileSystem) (expected dbPath content : String) (decoded : requestSourcesDb)
    (hread : readFile fs dbPath = .ok content) (hdecode : unmarshal content = .ok decoded) :
    ((∃ err, loadRequestSourcesDb unmarshal fs expected dbPath = .error err) ↔
        (expected ≠ "" ∧ expected ≠ decoded.SiteId)) ∧
      (expected ≠ "" ∧ expected ≠ decoded.SiteId →
        loadRequestSourcesDb unmarshal fs expected dbPath =
            .error ("the database at " ++ dbPath ++ " is for site " ++ decoded.SiteId ++
              ", not " ++ expected) ∧
          expected.data <:+: ("the database at " ++ dbPath ++ " is for site " ++
            decoded.SiteId ++ ", not " ++ expected).data ∧
          decoded.SiteId.data <:+: ("the database at " ++ dbPath ++ " is for site " ++
            decoded.SiteId ++ ", not " ++ expected).data) ∧
      (expected = "" ∨ expected = decoded.SiteId →
        loadRequestSourcesDb unmarshal fs expected dbPath =
          .ok { Data := decoded.Data, LastUpdate := decoded.LastUpdate
                SiteId := decoded.SiteId, dbPath := dbPath }) := by
  have hbad : expected ≠ "" ∧ expected ≠ decoded.SiteId →
      loadRequestSourcesDb unmarshal fs expected dbPath =
        .error ("the database at " ++ dbPath ++ " is for site " ++ decoded.SiteId ++
          ", not " ++ expected) := by
    rintro ⟨h1, h2⟩
    simp only [loadRequestSourcesDb, hread, hdecode]
    rw [if_pos ⟨h1, fun e => h2 e.symm⟩]
    rfl
  have hgood : expected = "" ∨ expected = decoded.SiteId →
      loadRequestSourcesDb unmarshal fs expected dbPath =
        .ok { Data := decoded.Data, LastUpdate := decoded.LastUpdate
              SiteId := decoded.SiteId, dbPath := dbPath } := by
    intro h
    simp only [loadRequestSourcesDb, hread, hdecode]
    rw [if_neg]
    rintro ⟨h1, h2⟩
    rcases h with h | h
    · exact h1 h
    · exact h2 h.symm
  refine ⟨⟨?_, fun h => ⟨_, hbad h⟩⟩, fun h => ⟨hbad h, ?_, ?_⟩, hgood⟩
  · rintro ⟨err, herr⟩
    by_contra hn
    have hor : expected = "" ∨ expected = decoded.SiteId := by
      by_cases h1 : expected = ""
      · exact Or.inl h1
      · by_cases h2 : expected = decoded.SiteId
        · exact Or.inr h2
        · exact absurd ⟨h1, h2⟩ hn
    rw [hgood hor] at herr
    cases herr
  · simp only [String.data_append]
    refine ⟨("the database at " ++ dbPath ++ " is for site " ++ decoded.SiteId ++ ", not ").data,
      [], ?_⟩
    simp [String.data_append, List.append_assoc]
  · simp only [String.data_append]
    refine ⟨("the database at " ++ dbPath ++ " is for site ").data, (", not " ++ expected).data, ?_⟩
    simp [String.data_append, List.append_assoc]

/-- C10 at scenario S5: the snapshot at `./s.db` is bound to site A and site B is
expected. -/
theorem loadRequestSourcesDb_site_binding_witness :
    readFile diskS5 "./s.db" = .ok "snapshot of site A" ∧
      unmarshalS5 "snapshot of site A" = .ok oneRecord ∧
      loadRequestSourcesDb unmarshalS5 diskS5 "B" "./s.db" =
        .error "the database at ./s.db is for site A, not B" ∧
      loadRequestSourcesDb unmarshalS5 diskS5 "A" "./s.db" =
        .ok { Data := oneRecord.Data, LastUpdate := oneRecord.LastUpdate
              SiteId := oneRecord.SiteId, dbPath := "./s.db" } :=
  ⟨rfl, rfl,
    ((loadRequestSourcesDb_site_binding unmarshalS5 diskS5 "B" "./s.db" "snapshot of site A"
      oneRecord rfl rfl).2.1 ⟨by decide, by decide⟩).1.trans
      (congrArg Except.error (by decide)),
    (loadRequestSourcesDb_site_binding unmarshalS5 diskS5 "A" "./s.db" "snapshot of site A"
      oneRecord rfl rfl).2.2 (Or.inr rfl)⟩

/-! ## Incremental driver -/

theorem save_unchanged_path (marshal : requestSourcesDb → Except String String)
    (fs : FileSystem) (rsDb : requestSourcesDb) (bytes : String)
    (h : marshal rsDb = .ok bytes) :
    save marshal none fs rsDb =
      (fun p => if p = rsDb.dbPath then .content bytes else fs p, none) := by
  simp only [save, h, writeFile]

theorem except_cases {ε α : Type} (x : Except ε α) :
    (∃ e, x = .error e) ∨ (∃ a, x = .ok a) := by
  cases x with
  | error e => exact Or.inl ⟨e, rfl⟩
  | ok a => exact Or.inr ⟨a, rfl⟩

theorem fetchAndFold_fetch_failed (w : World) (fs : FileSystem) (rsDb : requestSourcesDb)
    (query : VisitQuery) (err : String) (h : w.getVisits query = .error err) :
    fetchAndFold w fs rsDb query =
      { fs := fs, requested := some query, calls := [], saved := none
        outcome := .fetchFailed err } := by
  simp only [fetchAndFold, h]

theorem fetchAndFold_visit_failed (w : World) (fs : FileSystem) (rsDb : requestSourcesDb)
    (query : VisitQuery) (visits : List impervaVisit) (err : String)
    (h : w.getVisits query = .ok visits) (hfold : (addVisits w.whoIs visits rsDb []).err = some err) :
    fetchAndFold w fs rsDb query =
      { fs := fs, requested := some query, calls := (addVisits w.whoIs visits rsDb []).calls
        saved := none, outcome := .visitFailed err } := by
  simp only [fetchAndFold, h, hfold]

theorem fetchAndFold_folded (w : World) (fs : FileSystem) (rsDb : requestSourcesDb)
    (query : VisitQuery) (visits : List impervaVisit)
    (h : w.getVisits query = .ok visits) (hfold : (addVisits w.whoIs visits rsDb []).err = none) :
    (fetchAndFold w fs rsDb query).requested = some query ∧
      (fetchAndFold w fs rsDb query).saved =
        some { (addVisits w.whoIs visits rsDb []).rs with LastUpdate := query.finish } ∧
      (fetchAndFold w fs rsDb query).calls = (addVisits w.whoIs visits rsDb []).calls ∧
      (fetchAndFold w fs rsDb query).fs =
        (save w.marshal w.writeFailure fs
          { (addVisits w.whoIs visits rsDb []).rs with LastUpdate := query.finish }).1 ∧
      ((fetchAndFold w fs rsDb query).outcome = .complete ↔
        (save w.marshal w.writeFailure fs
          { (addVisits w.whoIs visits rsDb []).rs with LastUpdate := query.finish }).2 = none) := by
  simp only [fetchAndFold, h, hfold]
  split
  · rename_i fs1 err heq
    rw [heq]
    exact ⟨rfl, rfl, rfl, rfl, by simp⟩
  · rename_i fs1 heq
    rw [heq]
    exact ⟨rfl, rfl, rfl, rfl, by simp⟩

/-- Effects of lines 234-258 for a given snapshot and window. -/
theorem fetchAndFold_effects (w : World) (fs : FileSystem) (rsDb : requestSourcesDb)
    (query : VisitQuery) :
    (fetchAndFold w fs rsDb query).requested = some query ∧
      (∀ err, w.getVisits query = .error err →
        (fetchAndFold w fs rsDb query).saved = none ∧ (fetchAndFold w fs rsDb query).fs = fs) ∧
      (∀ visits, w.getVisits query = .ok visits → (addVisits w.whoIs visits rsDb []).err ≠ none →
        (fetchAndFold w fs rsDb query).saved = none ∧ (fetchAndFold w fs rsDb query).fs = fs) ∧
      ((fetchAndFold w fs rsDb query).saved = none → (fetchAndFold w fs rsDb query).fs = fs) ∧
      (∀ final, (fetchAndFold w fs rsDb query).saved = some final →
        ∃ visits, w.getVisits query = .ok visits ∧
          (addVisits w.whoIs visits rsDb []).err = none ∧
          final = { (addVisits w.whoIs visits rsDb []).rs with LastUpdate := query.finish }) := by
  rcases except_cases (w.getVisits query) with ⟨err, hfetch⟩ | ⟨visits, hfetch⟩
  · rw [fetchAndFold_fetch_failed w fs rsDb query err hfetch]
    refine ⟨rfl, fun _ _ => ⟨rfl, rfl⟩, fun v hv _ => ?_, fun _ => rfl, fun _ h => ?_⟩
    · rw [hfetch] at hv
      cases hv
    · cases h
  · cases hfold : (addVisits w.whoIs visits rsDb []).err with
    | some err =>
      rw [fetchAndFold_visit_failed w fs rsDb query visits err hfetch hfold]
      refine ⟨rfl, fun e he => ?_, fun _ _ _ => ⟨rfl, rfl⟩, fun _ => rfl, fun _ h => ?_⟩
      · rw [hfetch] at he
        cases he
      · cases h
    | none =>
      obtain ⟨h1, h2, _, _, _⟩ := fetchAndFold_folded w fs rsDb query visits hfetch hfold
      refine ⟨h1, fun e he => ?_, fun v hv hne => ?_, fun hs => ?_, fun final hf => ?_⟩
      · rw [hfetch] at he
        cases he
      · rw [hfetch] at hv
        cases hv
        exact absurd hfold hne
      · rw [h2] at hs
        cases hs
      · rw [h2] at hf
        exact ⟨visits, hfetch, hfold, (Option.some.inj hf).symm⟩

/-- A run that ends before the visit fetch asks for no visits, saves nothing and leaves
the file system as it was. -/
theorem openSnapshot_error (w : World) (fs : FileSystem) (args : UpdateArgs)
    (result : UpdateResult) (h : openSnapshot w fs args = .error result) :
    result.requested = none ∧ result.saved = none ∧ result.fs = fs := by
  unfold openSnapshot at h
  split at h
  · cases h
  · split at h
    · cases h
      exact ⟨rfl, rfl, rfl⟩
    · split_ifs at h
      cases h
      exact ⟨rfl, rfl, rfl⟩

/-- C8: in every run of `updateHandler`, if the visit fetch fails, or if the fold of the
visits returned ends with an error, then `save` is not called and the file system after
the run is the one before it.  A run that does not call `save` leaves the file system as
it was.  When `save` is called, the visit fetch has succeeded, the fold of all the visits
returned has ended without error, and the snapshot saved is the folded one with
`LastUpdate` set to the end of the window. -/
theorem updateHandler_abort_atomic (w : World) (fs : FileSystem) (args : UpdateArgs) :
    (∀ query err, (updateHandler w fs args).requested = some query →
        w.getVisits query = .error err →
        (updateHandler w fs args).saved = none ∧ (updateHandler w fs args).fs = fs) ∧
      (∀ rsDb start query visits, openSnapshot w fs args = .ok (rsDb, start) →
        (updateHandler w fs args).requested = some query → w.getVisits query = .ok visits →
        (addVisits w.whoIs visits rsDb []).err ≠ none →
        (updateHandler w fs args).saved = none ∧ (updateHandler w fs args).fs = fs) ∧
      ((updateHandler w fs args).saved = none → (updateHandler w fs args).fs = fs) ∧
      (∀ final, (updateHandler w fs args).saved = some final →
        ∃ rsDb start query visits, openSnapshot w fs args = .ok (rsDb, start) ∧
          (updateHandler w fs args).requested = some query ∧
          query.finish = windowEnd w.now w.localOffset ∧
          w.getVisits query = .ok visits ∧
          (addVisits w.whoIs visits rsDb []).err = none ∧
          final = { (addVisits w.whoIs visits rsDb []).rs with
            LastUpdate := windowEnd w.now w.localOffset }) := by
  cases hopen : openSnapshot w fs args with
  | error result =>
    obtain ⟨h1, h2, h3⟩ := openSnapshot_error w fs args result hopen
    have hrun : updateHandler w fs args = result := by
      simp only [updateHandler, hopen]
    rw [hrun, h1, h2, h3]
    exact ⟨fun _ _ h => (by cases h), fun _ _ _ _ h => (by cases h), fun _ => rfl,
      fun _ h => by cases h⟩
  | ok opened =>
    obtain ⟨rsDb, start⟩ := opened
    by_cases hcodes : (args.eventCodes.getD []).length = 0
    · have hrun : updateHandler w fs args =
          { fs := fs, requested := none, calls := [], saved := none, outcome := .noCodes } := by
        simp only [updateHandler, hopen, hcodes, if_true]
      rw [hrun]
      exact ⟨fun _ _ h => (by cases h), fun _ _ _ _ _ h => (by cases h), fun _ => rfl,
        fun _ h => by cases h⟩
    · have hrun : ∃ query0 : VisitQuery, query0.finish = windowEnd w.now w.localOffset ∧
          updateHandler w fs args = fetchAndFold w fs rsDb query0 :=
        ⟨{ siteId := args.siteId, start := start, finish := windowEnd w.now w.localOffset
           maxPages := if args.maxPages < 1 then 1000 else args.maxPages
           codes := args.eventCodes.getD [] }, rfl,
          by simp only [updateHandler, hopen, hcodes, if_false]⟩
      obtain ⟨query0, hfinish, hrun⟩ := hrun
      obtain ⟨e1, e2, e3, e4, e5⟩ := fetchAndFold_effects w fs rsDb query0
      rw [hrun]
      refine ⟨fun query err hq he => ?_, fun r s query visits ho hq hv hne => ?_, e4,
        fun final hf => ?_⟩
      · rw [e1] at hq
        cases hq
        exact e2 err he
      · rw [e1] at hq
        cases hq
        cases ho
        exact e3 visits hv hne
      · obtain ⟨visits, hv, hfold, hfinal⟩ := e5 final hf
        rw [hfinish] at hfinal
        exact ⟨rsDb, start, query0, visits, rfl, e1, hfinish, hv, hfold, hfinal⟩

/-- C8 at two concrete runs on a disk holding a snapshot of site A: one in which the
visit fetch fails, one in which the lookup of a new IP fails during the fold. -/
theorem updateHandler_abort_atomic_witness :
    ((updateHandler { worldNoFetch with unmarshal := unmarshalS5 } diskS5 argsS1).outcome =
        .fetchFailed "503 from upstream" ∧
      (updateHandler { worldNoFetch with unmarshal := unmarshalS5 } diskS5 argsS1).saved = none ∧
      (updateHandler { worldNoFetch with unmarshal := unmarshalS5 } diskS5 argsS1).fs = diskS5) ∧
    ((updateHandler worldNoWhoIs diskS5 argsS1).outcome =
        .visitFailed "whois: connection refused" ∧
      (updateHandler worldNoWhoIs diskS5 argsS1).saved = none ∧
      (updateHandler worldNoWhoIs diskS5 argsS1).fs = diskS5) :=
  ⟨⟨by decide,
      (updateHandler_abort_atomic { worldNoFetch with unmarshal := unmarshalS5 } diskS5 argsS1).1
        { siteId := "A", start := zeroTime + 1 * second
          finish := windowEnd worldS1.now worldS1.localOffset, maxPages := 1000, codes := ["R1"] }
        "503 from upstream" rfl rfl⟩,
    ⟨by decide,
      (updateHandler_abort_atomic worldNoWhoIs diskS5 argsS1).2.1
        { oneRecord with dbPath := "./s.db" } (zeroTime + 1 * second)
        { siteId := "A", start := zeroTime + 1 * second
          finish := windowEnd worldS1.now worldS1.localOffset, maxPages := 1000, codes := ["R1"] }
        [{ ClientIPs := ["9.9.9.9"], EntryPage := "/login", StartTime := 1710000000000 }]
        rfl rfl rfl (by decide)⟩⟩

theorem addVisits_binding (whoIs : List String → String → Except String InfoMap)
    (visits : List impervaVisit) (rs : requestSourcesDb) (calls : List String) :
    (addVisits whoIs visits rs calls).rs.SiteId = rs.SiteId ∧
      (addVisits whoIs visits rs calls).rs.dbPath = rs.dbPath ∧
      (addVisits whoIs visits rs calls).rs.LastUpdate = rs.LastUpdate := by
  refine addVisits_induct whoIs
    (fun r _ => r.SiteId = rs.SiteId ∧ r.dbPath = rs.dbPath ∧ r.LastUpdate = rs.LastUpdate)
    visits ?_ ?_ ?_ rs calls ⟨rfl, rfl, rfl⟩
  · intro _ _ _ _ _ _ _ h _
    exact h
  · intro _ _ _ _ _ _ _ h _ _
    exact h
  · intro _ _ _ _ _ _ _ h _ _
    exact h

/-- The window end at 10:00:00 UTC on 2024-03-15 is 2024-03-14T23:59:59Z in every zone
in which that instant falls on 2024-03-15. -/
theorem windowEnd_S1 (localOffset : Int) (hlo : -36000 ≤ localOffset) (hhi : localOffset < 50400) :
    windowEnd (date 2024 3 15 10 0 0) localOffset = date 2024 3 14 23 59 59 := by
  have hnow : date 2024 3 15 10 0 0 / second = 1710496800 := by decide
  have hday : (1710496800 + localOffset) / 86400 = 19797 := by omega
  unfold windowEnd localDate
  rw [hnow, hday]
  decide

theorem save_succeeded (marshal : requestSourcesDb → Except String String)
    (failure : Option (String × FileState)) (fs : FileSystem) (rsDb : requestSourcesDb)
    (h : (save marshal failure fs rsDb).2 = none) :
    ∃ bytes, marshal rsDb = .ok bytes ∧
      (save marshal failure fs rsDb).1 rsDb.dbPath = .content bytes := by
  unfold save at h ⊢
  cases hm : marshal rsDb with
  | error err =>
    rw [hm] at h
    cases h
  | ok bytes =>
    rw [hm] at h
    cases hf : failure with
    | some pair =>
      rw [hf] at h
      cases h
    | none =>
      refine ⟨bytes, rfl, ?_⟩
      simp [writeFile]

theorem fetchAndFold_complete (w : World) (fs : FileSystem) (rsDb : requestSourcesDb)
    (query : VisitQuery) (h : (fetchAndFold w fs rsDb query).outcome = .complete) :
    ∃ final bytes, (fetchAndFold w fs rsDb query).saved = some final ∧
      w.marshal final = .ok bytes ∧
      (fetchAndFold w fs rsDb query).fs final.dbPath = .content bytes := by
  rcases except_cases (w.getVisits query) with ⟨err, hfetch⟩ | ⟨visits, hfetch⟩
  · rw [fetchAndFold_fetch_failed w fs rsDb query err hfetch] at h
    cases h
  · cases hfold : (addVisits w.whoIs visits rsDb []).err with
    | some err =>
      rw [fetchAndFold_visit_failed w fs rsDb query visits err hfetch hfold] at h
      cases h
    | none =>
      obtain ⟨_, h2, _, h4, h5⟩ := fetchAndFold_folded w fs rsDb query visits hfetch hfold
      obtain ⟨bytes, hb, hfs⟩ := save_succeeded w.marshal w.writeFailure fs _ (h5.mp h)
      exact ⟨_, bytes, h2, hb, by rw [h4]; exact hfs⟩

/-- C6, as stated, fails on the start of the window: in scenario S1 with the process in
UTC the visits are requested from 2024-02-13T23:59:59Z, which is the end of the window
less 30 days of 24 hours (line 191), not from 2024-02-13T00:00:00Z.  It also depends on
the zone of the process: 14 hours east of UTC the local date is 2024-03-16 and the window
ends at 2024-03-15T23:59:59Z. -/
theorem updateHandler_S1_start_not_midnight :
    worldS1.now = date 2024 3 15 10 0 0 ∧ emptyDisk argsS1.dbPath = .absent ∧
      (updateHandler worldS1 emptyDisk argsS1).requested =
        some { siteId := "A", start := date 2024 2 13 23 59 59
               finish := date 2024 3 14 23 59 59, maxPages := 1000, codes := ["R1"] } ∧
      date 2024 2 13 23 59 59 ≠ date 2024 2 13 0 0 0 ∧
      date 2024 2 13 23 59 59 = 1707868799 * second ∧
      date 2024 2 13 0 0 0 = 1707782400 * second ∧
      (updateHandler worldS1East emptyDisk argsS1).requested =
        some { siteId := "A", start := date 2024 2 14 23 59 59
               finish := date 2024 3 15 23 59 59, maxPages := 1000, codes := ["R1"] } ∧
      date 2024 3 15 23 59 59 ≠ date 2024 3 14 23 59 59 := by
  refine ⟨rfl, rfl, ?_, ?_, ?_, ?_, ?_, ?_⟩ <;> decide

/-- C6, amended: `updateHandler` runs at 2024-03-15T10:00:00Z in a zone where that
instant falls on 2024-03-15 (offset from -10:00 to just under +14:00), with no file at
`dbPath`, site A and at least one code.  The visits are requested for site A over
[2024-02-13T23:59:59Z, 2024-03-14T23:59:59Z]; a snapshot that is saved is bound to site
A, has `dbPath` as its path and `LastUpdate` 2024-03-14T23:59:59Z; and when the run
completes, that snapshot is what the file at `dbPath` holds. -/
theorem updateHandler_S1 (w : World) (fs : FileSystem) (args : UpdateArgs)
    (codes : List String) (hnow : w.now = date 2024 3 15 10 0 0)
    (hlo : -36000 ≤ w.localOffset) (hhi : w.localOffset < 50400)
    (hfile : fs args.dbPath = .absent) (hsite : args.siteId = "A")
    (hcodes : args.eventCodes = some codes) (hne : codes ≠ []) :
    (updateHandler w fs args).requested =
        some { siteId := "A", start := date 2024 2 13 23 59 59
               finish := date 2024 3 14 23 59 59
               maxPages := if args.maxPages < 1 then 1000 else args.maxPages
               codes := codes } ∧
      (∀ final, (updateHandler w fs args).saved = some final →
        final.SiteId = "A" ∧ final.dbPath = args.dbPath ∧
          final.LastUpdate = date 2024 3 14 23 59 59) ∧
      ((updateHandler w fs args).outcome = .complete →
        ∃ final bytes, (updateHandler w fs args).saved = some final ∧
          w.marshal final = .ok bytes ∧
          (updateHandler w fs args).fs args.dbPath = .content bytes) ∧
      date 2024 2 13 23 59 59 = 1707868799 * second ∧
      date 2024 3 14 23 59 59 = 1710460799 * second := by
  have hend : windowEnd w.now w.localOffset = date 2024 3 14 23 59 59 := by
    rw [hnow]
    exact windowEnd_S1 w.localOffset hlo hhi
  have hstart : date 2024 3 14 23 59 59 + -30 * 24 * hour = date 2024 2 13 23 59 59 := by
    decide
  have hopen : openSnapshot w fs args =
      .ok ({ newRequestSourcesDb "A" with dbPath := args.dbPath }, date 2024 2 13 23 59 59) := by
    simp only [openSnapshot, hfile, hend, hstart, hsite]
  have hlen : ¬ codes.length = 0 := fun h => hne (List.length_eq_zero.mp h)
  have hrun : updateHandler w fs args =
      fetchAndFold w fs { newRequestSourcesDb "A" with dbPath := args.dbPath }
        { siteId := "A", start := date 2024 2 13 23 59 59, finish := date 2024 3 14 23 59 59
          maxPages := if args.maxPages < 1 then 1000 else args.maxPages, codes := codes } := by
    simp only [updateHandler, hopen, hcodes, Option.getD_some, hlen, if_false, hend, hsite]
  rw [hrun]
  obtain ⟨e1, _, _, _, e5⟩ := fetchAndFold_effects w fs
    { newRequestSourcesDb "A" with dbPath := args.dbPath }
    { siteId := "A", start := date 2024 2 13 23 59 59, finish := date 2024 3 14 23 59 59
      maxPages := if args.maxPages < 1 then 1000 else args.maxPages, codes := codes }
  have hsaved : ∀ final, (fetchAndFold w fs { newRequestSourcesDb "A" with dbPath := args.dbPath }
      { siteId := "A", start := date 2024 2 13 23 59 59, finish := date 2024 3 14 23 59 59
        maxPages := if args.maxPages < 1 then 1000 else args.maxPages
        codes := codes }).saved = some final →
      final.SiteId = "A" ∧ final.dbPath = args.dbPath ∧
        final.LastUpdate = date 2024 3 14 23 59 59 := by
    intro final hf
    obtain ⟨visits, _, _, hfinal⟩ := e5 final hf
    obtain ⟨b1, b2, _⟩ := addVisits_binding w.whoIs visits
      { newRequestSourcesDb "A" with dbPath := args.dbPath } []
    rw [hfinal]
    exact ⟨b1, b2, rfl⟩
  refine ⟨e1, hsaved, fun hc => ?_, by decide, by decide⟩
  obtain ⟨final, bytes, hs, hm, hfs⟩ := fetchAndFold_complete w fs _ _ hc
  refine ⟨final, bytes, hs, hm, ?_⟩
  have hpath := (hsaved final hs).2.1
  rw [hpath] at hfs
  exact hfs

/-- C6, amended, at scenario S1 with the process in UTC: the run completes and the file
holds the snapshot saved. -/
theorem updateHandler_S1_witness :
    worldS1.now = date 2024 3 15 10 0 0 ∧ emptyDisk argsS1.dbPath = .absent ∧
      (updateHandler worldS1 emptyDisk argsS1).requested =
        some { siteId := "A", start := date 2024 2 13 23 59 59
               finish := date 2024 3 14 23 59 59, maxPages := 1000, codes := ["R1"] } ∧
      (updateHandler worldS1 emptyDisk argsS1).outcome = .complete ∧
      ((updateHandler worldS1 emptyDisk argsS1).saved.map fun final =>
        (final.SiteId, final.LastUpdate)) = some ("A", date 2024 3 14 23 59 59) ∧
      (updateHandler worldS1 emptyDisk argsS1).fs "./s.db" = .content "snapshot of site A" :=
  ⟨rfl, rfl,
    (updateHandler_S1 worldS1 emptyDisk argsS1 ["R1"] rfl (by decide) (by decide) rfl rfl rfl
      (by decide)).1,
    by decide, by decide, by decide⟩

/-- C7 (the code departs from the claim): line 186 takes year, month and day from
`time.Now()`, which is in the local zone, and builds midnight UTC of that date.  At
2024-03-15T23:00:00Z in a zone two hours east of UTC the local date is 2024-03-16, so the
window ends at 2024-03-15T23:59:59Z: not at the start of the UTC day containing the
instant less one second (2024-03-14T23:59:59Z), not before the start of that day, and
later than the instant itself.  That end is the `LastUpdate` saved.  With the process in
UTC the end is 2024-03-14T23:59:59Z. -/
theorem windowEnd_uses_local_date :
    windowEnd (date 2024 3 15 23 0 0) 7200 = date 2024 3 15 23 59 59 ∧
      utcDayStart (date 2024 3 15 23 0 0) = date 2024 3 15 0 0 0 ∧
      utcDayStart (date 2024 3 15 23 0 0) - second = date 2024 3 14 23 59 59 ∧
      windowEnd (date 2024 3 15 23 0 0) 7200 ≠ utcDayStart (date 2024 3 15 23 0 0) - second ∧
      ¬ windowEnd (date 2024 3 15 23 0 0) 7200 < utcDayStart (date 2024 3 15 23 0 0) ∧
      date 2024 3 15 23 0 0 < windowEnd (date 2024 3 15 23 0 0) 7200 ∧
      ((updateHandler worldLate emptyDisk argsS1).saved.map fun final => final.LastUpdate) =
        some (date 2024 3 15 23 59 59) ∧
      windowEnd (date 2024 3 15 23 0 0) 0 = date 2024 3 14 23 59 59 ∧
      date 2024 3 15 23 0 0 = 1710543600 * second ∧
      date 2024 3 15 23 59 59 = 1710547199 * second := by
  refine ⟨?_, ?_, ?_, ?_, ?_, ?_, ?_, ?_, ?_, ?_⟩ <;> decide

end Scratch
